import Mathlib

/-!
Verification of the Laddel Home Assistant integration's
authentication-and-synchronization subsystem
(`custom_components/laddel/coordinator.py` and
`custom_components/laddel/oauth2.py`).

The Python code is shallowly embedded: JSON payloads become an inductive
`Json` type with Python-style truthiness, the coordinator's mutable
attributes become an explicit `CoordState` record threaded through each
operation, network I/O becomes an explicit oracle of per-request results
(`Except Unit _`), and Python exceptions become `Except.error`.
Time is modelled as an integer number of seconds (`datetime.now()`
becomes an explicit `now : Int` argument; `timedelta` differences become
integer subtraction).
-/

/-- Shallow model of the Python/JSON values the coordinator manipulates.
Numbers are modelled as integers (no claim depends on float payloads);
objects are association lists of string keys. -/
inductive Json where
  | null : Json
  | bool : Bool → Json
  | num : Int → Json
  | str : String → Json
  | arr : List Json → Json
  | obj : List (String × Json) → Json

mutual
/-- Structural boolean equality on JSON values, modelling Python `==`
on parsed JSON (faithful for the scalar values the coordinator actually
compares; association lists are compared in order). -/
def Json.beq : Json → Json → Bool
  | Json.null, Json.null => true
  | Json.bool a, Json.bool b => a == b
  | Json.num a, Json.num b => a == b
  | Json.str a, Json.str b => a == b
  | Json.arr a, Json.arr b => Json.beqArr a b
  | Json.obj a, Json.obj b => Json.beqObj a b
  | _, _ => false
def Json.beqArr : List Json → List Json → Bool
  | [], [] => true
  | x :: xs, y :: ys => Json.beq x y && Json.beqArr xs ys
  | _, _ => false
def Json.beqObj : List (String × Json) → List (String × Json) → Bool
  | [], [] => true
  | (k1, v1) :: xs, (k2, v2) :: ys =>
      k1 == k2 && Json.beq v1 v2 && Json.beqObj xs ys
  | _, _ => false
end

namespace Json

/-- Python truthiness of a JSON value: `None`, `False`, `0`, `""`, `[]`,
`{}` are falsy, everything else truthy. -/
def truthy : Json → Bool
  | null => false
  | bool b => b
  | num n => n != 0
  | str s => s != ""
  | arr l => !l.isEmpty
  | obj l => !l.isEmpty

/-- First value bound to a key in an association list (Python dicts have
unique keys, so first-match lookup is faithful). -/
def lookupKey (kvs : List (String × Json)) (k : String) : Option Json :=
  match kvs with
  | [] => none
  | (k', v) :: rest => if k' = k then some v else lookupKey rest k

/-- JSON `null` parses to Python `None`, which is indistinguishable from
an absent value; collapse it into `Option`'s `none`. -/
def denull : Option Json → Option Json
  | some Json.null => none
  | x => x

/-- Python's `d.get(k)`: `None` when the key is absent (or bound to JSON
null); raises (`Except.error`) when the receiver is not a dict, as
`.get` does on non-dict objects. -/
def get? (j : Json) (k : String) : Except Unit (Option Json) :=
  match j with
  | obj kvs => Except.ok (denull (lookupKey kvs k))
  | _ => Except.error ()

/-- Python's `d[0]` on the value of a key expected to hold a non-empty
list: raises unless the value is a non-empty JSON array. -/
def head? (j : Json) : Except Unit Json :=
  match j with
  | arr (x :: _) => Except.ok x
  | _ => Except.error ()

/-- Python's `str()` as applied to facility identifiers (strings and
numbers; other shapes never reach `str()` in the claims considered). -/
def pyStr : Json → String
  | str s => s
  | num n => toString n
  | bool b => if b then "True" else "False"
  | null => "None"
  | arr _ => "[...]"
  | obj _ => "\x7b...\x7d"

end Json

/-- Truthiness of a Python value that may be `None` (`Option Json`):
`None` is falsy, otherwise defer to JSON truthiness. -/
def optTruthy : Option Json → Bool
  | none => false
  | some j => j.truthy

/-- Truthiness of an optional Python string (`None` and `""` falsy). -/
def strOptTruthy : Option String → Bool
  | none => false
  | some s => s ≠ ""

/-- Constant `DEFAULT_SCAN_INTERVAL` from `const.py` (seconds). -/
def DEFAULT_SCAN_INTERVAL : Int := 300

/-- Modelled from the spec: `CHARGING_SCAN_INTERVAL`, the short "active"
poll interval used while a charging session is live. The constant is
imported by `coordinator.py` but its numeric value is not present in the
provided `const.py`; the spec fixes only that it is a short interval,
distinct from the idle `DEFAULT_SCAN_INTERVAL`. The concrete value below
is irrelevant to every theorem (all statements use the name). -/
def CHARGING_SCAN_INTERVAL : Int := 30

/-- Data stored in the Home Assistant config entry (the external
configuration store) that the coordinator reads and writes:
`CONF_REFRESH_TOKEN`, `CONF_ACCESS_TOKEN`, `CONF_EXPIRES_IN`. -/
structure EntryData where
  refresh_token : Option String
  access_token : Option String
  expires_in : Option Int
deriving DecidableEq, Repr

/-- Boolean inequality on optional Python values (`!=` in the source). -/
def optNe (a b : Option Json) : Bool :=
  match a, b with
  | none, none => false
  | some x, some y => !Json.beq x y
  | _, _ => true

/-- Mutable attributes of `LaddelDataUpdateCoordinator` used by the
operations under verification, plus the config entry they persist to.
`update_interval` is in seconds; cache timestamps are absolute seconds. -/
structure CoordState where
  refresh_token : Option String
  access_token : Option String
  token_expires : Option Int
  entry_data : EntryData
  is_charging : Bool
  last_session_id : Option Json
  latest_charger_id : Option Json
  facility_cache : List (String × Json)
  facility_cache_time : Option Int
  latest_chargers_cache : Option Json
  latest_chargers_cache_time : Option Int
  subscription_cache : Option Json
  subscription_cache_time : Option Int
  update_interval : Int

/-- Coordinator method `_token_needs_refresh` (coordinator.py lines
180–197): true when there is no (truthy) access token, no known expiry,
or `now ≥ token_expires − 30` seconds. -/
def token_needs_refresh (st : CoordState) (now : Int) : Bool :=
  if ¬ strOptTruthy st.access_token then
    true
  else if st.token_expires.isNone then
    true
  else
    decide (now ≥ st.token_expires.getD 0 - 30)

/-- Body of a token-endpoint JSON response as read by
`_refresh_access_token`: presence or absence of each field of interest. -/
structure TokenResponse where
  access_token : Option String
  expires_in : Option Int
  refresh_token : Option String
deriving DecidableEq, Repr

/-- Coordinator method `_refresh_access_token` (coordinator.py lines
199–248). The HTTP POST is an oracle `resp` (`Except.error` for a
non-200 response or network failure, which the method re-raises).
The returned `Bool` records whether `hass.config_entries.async_update_entry`
was invoked (the write-back to the external configuration store), which
in the source happens only inside the `if "refresh_token" in token_data`
branch. -/
def refresh_access_token (st : CoordState) (now : Int)
    (resp : Except Unit TokenResponse) : Except Unit (CoordState × Bool) :=
  if ¬ strOptTruthy st.refresh_token then
    Except.error ()
  else
    match resp with
    | Except.error _ => Except.error ()
    | Except.ok tok =>
      let expires_in := tok.expires_in.getD 300
      let st1 := { st with
        access_token := tok.access_token,
        token_expires := some (now + expires_in) }
      match tok.refresh_token with
      | some rt =>
        let st2 := { st1 with
          refresh_token := some rt,
          entry_data := { st1.entry_data with
            refresh_token := some rt,
            access_token := st1.access_token,
            expires_in := some expires_in } }
        Except.ok (st2, true)
      | none => Except.ok (st1, false)

/-- Observable event emitted by `_update_charging_state`'s session-id
tracking block: the two `_LOGGER.info` calls for a new session and an
ended session, carrying the id they log. -/
inductive SessionEvent where
  | started : Option Json → SessionEvent
  | ended : Option Json → SessionEvent

/-- Uppercasing of one character, as Python `.upper()` does on ASCII
letters (the session-type values involved are ASCII). -/
def pyCharUpper (c : Char) : Char :=
  if 'a' ≤ c ∧ c ≤ 'z' then Char.ofNat (c.toNat - 32) else c

/-- Python `str.upper()` over ASCII strings. -/
def pyUpper (s : String) : String :=
  String.mk (s.data.map pyCharUpper)

/-- Python `.upper()` on a value expected to be a string: raises
(`AttributeError`) on any non-string value. -/
def Json.asUpper : Json → Except Unit String
  | Json.str s => Except.ok (pyUpper s)
  | _ => Except.error ()

/-- Python's `d.get(k, default)`: the stored value (JSON null stays the
Python `None` object, on which later method calls raise) or the default
when the key is absent; raises when the receiver is not a dict. -/
def Json.getD? (j : Json) (k : String) (d : Json) : Except Unit Json :=
  match j with
  | Json.obj kvs => Except.ok ((Json.lookupKey kvs k).getD d)
  | _ => Except.error ()

/-- Python's `d[k]`: raises when the receiver is not a dict or the key
is absent. -/
def Json.item? (j : Json) (k : String) : Except Unit Json :=
  match j with
  | Json.obj kvs =>
    match Json.lookupKey kvs k with
    | some v => Except.ok v
    | none => Except.error ()
  | _ => Except.error ()

/-- Python dict insertion `d[k] = v` (updates in place, preserving
insertion order). -/
def insertKey (kvs : List (String × Json)) (k : String) (v : Json) :
    List (String × Json) :=
  match kvs with
  | [] => [(k, v)]
  | (k', v') :: rest =>
    if k' = k then (k, v) :: rest else (k', v') :: insertKey rest k v

/-- Coordinator method `_update_charging_state` (coordinator.py lines
382–413). Mirrors the source statement by statement: derive
`current_charging` and `current_session_id` from the payload (raising on
ill-typed fields, before any attribute is mutated, exactly as the
source's reads all precede its writes); flip `is_charging` and the poll
interval when the charging flag changed; then update `_last_session_id`
and emit the logged event. Note the source assigns
`self._last_session_id = current_session_id` before the `elif` reads
`self._last_session_id`. -/
def update_charging_state (st : CoordState) (session_data : Option Json) :
    Except Unit (CoordState × Option SessionEvent) := do
  let (current_charging, current_session_id) ←
    (match session_data with
     | some sd =>
       if sd.truthy then do
         let session_type ← (← sd.getD? "type" (Json.str "")).asUpper
         let charger_mode ← sd.getD? "chargerOperatingMode" (Json.str "")
         let cc := session_type == "ACTIVE" && Json.beq charger_mode (Json.str "CHARGING")
         let sid ← sd.get? "sessionId"
         Except.ok (cc, sid)
       else Except.ok (false, (none : Option Json))
     | none => Except.ok (false, (none : Option Json)))
  let st1 :=
    if current_charging != st.is_charging then
      { st with
        is_charging := current_charging,
        update_interval :=
          if current_charging then CHARGING_SCAN_INTERVAL else DEFAULT_SCAN_INTERVAL }
    else st
  if optNe current_session_id st1.last_session_id then
    let st2 := { st1 with last_session_id := current_session_id }
    let ev :=
      if optTruthy current_session_id then
        some (SessionEvent.started current_session_id)
      else if optTruthy st2.last_session_id then
        some (SessionEvent.ended st2.last_session_id)
      else none
    Except.ok (st2, ev)
  else
    Except.ok (st1, none)

/-- Per-request results supplied by the network: one slot per endpoint
the coordinator talks to during a cycle. `Except.error` models a raised
exception (non-2xx status or transport failure). Keyed fetchers take the
stringified identifier interpolated into the request URL. -/
structure FetchOracle where
  token : Except Unit TokenResponse
  current_session : Except Unit Json
  subscription : Except Unit Json
  facility : String → Except Unit Json
  latest_chargers : Except Unit Json
  operating_mode : String → Except Unit Json
  recent_sessions : Except Unit Json

/-- Common body of the raw resource fetchers `_fetch_current_session`,
`_fetch_subscription_data`, `_fetch_facility_info`,
`_fetch_charger_operating_mode`, `_fetch_latest_chargers`,
`_fetch_recent_sessions`: raise before any request when there is no
access token, otherwise perform the request. The second component
counts network requests actually issued. -/
def fetch_raw (st : CoordState) (o : Except Unit Json) :
    Except Unit Json × Nat :=
  if ¬ strOptTruthy st.access_token then (Except.error (), 0) else (o, 1)

/-- Coordinator method `_fetch_facility_info_cached` (coordinator.py
lines 550–577): serve from `_facility_cache` when the id is cached and
the single shared `_facility_cache_time` is within the 1-hour TTL;
otherwise fetch, store and stamp the shared time on success, and on
failure fall back to a cached entry for that id if one exists. Returns
(result, new state, number of network requests issued). -/
def fetch_facility_info_cached (st : CoordState) (o : FetchOracle)
    (now : Int) (facility_id : String) :
    Except Unit Json × CoordState × Nat :=
  let cache_duration : Int := 3600
  if (Json.lookupKey st.facility_cache facility_id).isSome
      && st.facility_cache_time.isSome
      && decide (now - st.facility_cache_time.getD 0 < cache_duration) then
    (Except.ok ((Json.lookupKey st.facility_cache facility_id).getD Json.null), st, 0)
  else
    match fetch_raw st (o.facility facility_id) with
    | (Except.ok fd, n) =>
      (Except.ok fd,
       { st with
         facility_cache := insertKey st.facility_cache facility_id fd,
         facility_cache_time := some now }, n)
    | (Except.error e, n) =>
      match Json.lookupKey st.facility_cache facility_id with
      | some v => (Except.ok v, st, n)
      | none => (Except.error e, st, n)

/-- Coordinator method `_fetch_latest_chargers_cached` (coordinator.py
lines 579–606): 15-minute TTL; the freshness test and the stale
fallback both test the truthiness of the cached value itself. -/
def fetch_latest_chargers_cached (st : CoordState) (o : FetchOracle)
    (now : Int) : Except Unit Json × CoordState × Nat :=
  let cache_duration : Int := 900
  if optTruthy st.latest_chargers_cache
      && st.latest_chargers_cache_time.isSome
      && decide (now - st.latest_chargers_cache_time.getD 0 < cache_duration) then
    (Except.ok (st.latest_chargers_cache.getD Json.null), st, 0)
  else
    match fetch_raw st o.latest_chargers with
    | (Except.ok cd, n) =>
      (Except.ok cd,
       { st with
         latest_chargers_cache := some cd,
         latest_chargers_cache_time := some now }, n)
    | (Except.error e, n) =>
      if optTruthy st.latest_chargers_cache then
        (Except.ok (st.latest_chargers_cache.getD Json.null), st, n)
      else (Except.error e, st, n)

/-- Coordinator method `_fetch_subscription_data_cached` (coordinator.py
lines 608–635): 24-hour TTL; the freshness test and the stale fallback
both test the truthiness of the cached value itself. -/
def fetch_subscription_data_cached (st : CoordState) (o : FetchOracle)
    (now : Int) : Except Unit Json × CoordState × Nat :=
  let cache_duration : Int := 86400
  if optTruthy st.subscription_cache
      && st.subscription_cache_time.isSome
      && decide (now - st.subscription_cache_time.getD 0 < cache_duration) then
    (Except.ok (st.subscription_cache.getD Json.null), st, 0)
  else
    match fetch_raw st o.subscription with
    | (Except.ok sd, n) =>
      (Except.ok sd,
       { st with
         subscription_cache := some sd,
         subscription_cache_time := some now }, n)
    | (Except.error e, n) =>
      if optTruthy st.subscription_cache then
        (Except.ok (st.subscription_cache.getD Json.null), st, n)
      else (Except.error e, st, n)

/-- The per-cycle aggregate dict built by `_async_update_data`. An outer
`none` models a key the cycle never set; `some none` models a key set to
Python `None`; `some (some j)` a key set to a fetched value. -/
structure Snapshot where
  current_session : Option (Option Json) := none
  subscription : Option (Option Json) := none
  facility : Option (Option Json) := none
  latest_chargers : Option (Option Json) := none
  charger_operating_mode : Option (Option Json) := none
  recent_sessions : Option (Option Json) := none
  last_update : Int := 0

/-- Session slice of the cycle (coordinator.py lines 86–98): fetch the
current session and feed it to `_update_charging_state`; on any raise,
set the slice to `None` and feed `None` to `_update_charging_state`
instead (a raise from that fallback call itself — impossible in fact —
would escape the inner `try`). -/
def session_step (st : CoordState) (o : FetchOracle) :
    Except Unit (Option (Option Json) × CoordState) :=
  match fetch_raw st o.current_session with
  | (Except.ok sd, _) =>
    match update_charging_state st (some sd) with
    | Except.ok (st', _) => Except.ok (some (some sd), st')
    | Except.error _ =>
      (update_charging_state st none).map (fun p => (some none, p.fst))
  | (Except.error _, _) =>
    (update_charging_state st none).map (fun p => (some none, p.fst))

/-- Subscription slice of the cycle (coordinator.py lines 105–116):
fetch through the cache, then — when no facility id is known yet and the
payload is truthy with a truthy `activeSubscriptions` — pull a facility
id out of its first element. Any raise inside the `try` nulls the slice
and leaves `facility_id` as it was. -/
def subscription_step (st : CoordState) (o : FetchOracle) (now : Int)
    (facility_id : Option Json) :
    Option (Option Json) × CoordState × Option Json :=
  match fetch_subscription_data_cached st o now with
  | (Except.error _, st', _) => (some none, st', facility_id)
  | (Except.ok sd, st', _) =>
    if !optTruthy facility_id && sd.truthy then
      match sd.get? "activeSubscriptions" with
      | Except.error _ => (some none, st', facility_id)
      | Except.ok subs =>
        if optTruthy subs then
          match (do
              let lst ← sd.item? "activeSubscriptions"
              let first ← lst.head?
              first.get? "facilityId") with
          | Except.error _ => (some none, st', facility_id)
          | Except.ok fid => (some (some sd), st', fid)
        else (some (some sd), st', facility_id)
    else (some (some sd), st', facility_id)

/-- Facility slice of the cycle (coordinator.py lines 118–136): only
runs when a truthy facility id was resolved (otherwise the key is never
set); fetches through the cache with the stringified id; the
device-info block's `facility_data.get("facilityName", ...)` runs inside
the same `try`, so its raise (truthy non-dict payload) also nulls the
slice. -/
def facility_step (st : CoordState) (o : FetchOracle) (now : Int)
    (facility_id : Option Json) : Option (Option Json) × CoordState :=
  if optTruthy facility_id then
    match fetch_facility_info_cached st o now (Json.pyStr (facility_id.getD Json.null)) with
    | (Except.error _, st', _) => (some none, st')
    | (Except.ok fd, st', _) =>
      if fd.truthy then
        match fd.getD? "facilityName" (Json.str "Laddel Account") with
        | Except.error _ => (some none, st')
        | Except.ok _ => (some (some fd), st')
      else (some (some fd), st')
  else (none, st)

/-- Latest-chargers slice of the cycle (coordinator.py lines 138–148):
fetch through the cache and remember the first charger's id in
`_latest_charger_id` when the payload carries a truthy `chargers` list. -/
def chargers_step (st : CoordState) (o : FetchOracle) (now : Int) :
    Option (Option Json) × CoordState :=
  match fetch_latest_chargers_cached st o now with
  | (Except.error _, st', _) => (some none, st')
  | (Except.ok lc, st', _) =>
    if lc.truthy then
      match lc.get? "chargers" with
      | Except.error _ => (some none, st')
      | Except.ok cs =>
        if optTruthy cs then
          match (do
              let lst ← lc.item? "chargers"
              let first ← lst.head?
              first.get? "chargerId") with
          | Except.error _ => (some none, st')
          | Except.ok cid =>
            (some (some lc), { st' with latest_charger_id := cid })
        else (some (some lc), st')
    else (some (some lc), st')

/-- Coordinator method `_async_update_data` (coordinator.py lines
76–178): one synchronization cycle. The token step's failure (and any
raise outside the per-slice `try` blocks, such as the facility-id and
charger-id resolutions) is re-raised as `UpdateFailed`
(`Except.error`); each slice's failure only nulls that slice. -/
def async_update_data (st0 : CoordState) (o : FetchOracle) (now : Int) :
    Except Unit (Snapshot × CoordState) := do
  let st1 ←
    (if token_needs_refresh st0 now then
      (refresh_access_token st0 now o.token).map Prod.fst
     else Except.ok st0)
  let (sessionSlice, st2) ← session_step st1 o
  let facility_id0 : Option Json ←
    (match sessionSlice with
     | some (some sd) =>
       if sd.truthy then sd.get? "facilityId" else Except.ok none
     | _ => Except.ok none)
  let (subSlice, st3, facility_id) := subscription_step st2 o now facility_id0
  let (facSlice, st4) := facility_step st3 o now facility_id
  let (chSlice, st5) := chargers_step st4 o now
  let charger_id : Option Json ←
    (match sessionSlice with
     | some (some sd) =>
       if sd.truthy then do
         let c ← sd.get? "chargerId"
         if optTruthy c then
           (sd.item? "chargerId").map some
         else
           Except.ok (if optTruthy st5.latest_charger_id then st5.latest_charger_id else none)
       else
         Except.ok (if optTruthy st5.latest_charger_id then st5.latest_charger_id else none)
     | _ =>
       Except.ok (if optTruthy st5.latest_charger_id then st5.latest_charger_id else none))
  let (omSlice, st6) :=
    if optTruthy charger_id then
      match fetch_raw st5 (o.operating_mode (Json.pyStr (charger_id.getD Json.null))) with
      | (Except.ok cd, _) => (some (some cd), st5)
      | (Except.error _, _) => (some none, st5)
    else ((none : Option (Option Json)), st5)
  let rsSlice :=
    match fetch_raw st6 o.recent_sessions with
    | (Except.ok rs, _) => some (some rs)
    | (Except.error _, _) => some none
  Except.ok
    ({ current_session := sessionSlice
       subscription := subSlice
       facility := facSlice
       latest_chargers := chSlice
       charger_operating_mode := omSlice
       recent_sessions := rsSlice
       last_update := now }, st6)

/-- Coordinator method `start_charging_session` (coordinator.py lines
496–548). `charger_id` is the Python argument (default `None`); a falsy
argument falls back to the remembered `_latest_charger_id`. The POST is
an oracle from the stringified charger id to a status code
(`Except.error` models a transport exception, caught by the source's
`try`). Result: the returned Bool (as `Except`, to express that no
exception escapes) and the number of network requests issued. -/
def start_charging_session (st : CoordState) (charger_id : Option Json)
    (post : String → Except Unit Nat) : Except Unit Bool × Nat :=
  if ¬ strOptTruthy st.access_token then
    (Except.ok false, 0)
  else
    let cid := if !optTruthy charger_id then st.latest_charger_id else charger_id
    if ¬ optTruthy cid then
      (Except.ok false, 0)
    else
      match post (Json.pyStr (cid.getD Json.null)) with
      | Except.ok status => (Except.ok (status == 200 || status == 204), 1)
      | Except.error _ => (Except.ok false, 1)

/-- Literal `"<form"` from the regex in `_extract_form_action`. -/
def fpat : List Char := '<' :: 'f' :: 'o' :: 'r' :: 'm' :: []

/-- Literal `action="` from the regex in `_extract_form_action`. -/
def apat : List Char := 'a' :: 'c' :: 't' :: 'i' :: 'o' :: 'n' :: '=' :: '"' :: []

/-- Literal `login-actions/authenticate` from the regex in
`_extract_form_action`. -/
def lpat : List Char := "login-actions/authenticate".data

/-- Boolean substring test: `pat` occurs contiguously inside `s`. -/
def hasSub (pat : List Char) : List Char → Bool
  | [] => pat.isEmpty
  | c :: rest => pat.isPrefixOf (c :: rest) || hasSub pat rest

/-- One attempted match of `action="([^"]*login-actions/authenticate[^"]*)"`
at the head of `s`: the captured group runs from after the quote to the
next quote (which must exist) and must contain the literal. -/
def tryActionHere (s : List Char) : Option (List Char) :=
  if apat.isPrefixOf s then
    let afterq := s.drop 8
    let grp := afterq.takeWhile (· ≠ '"')
    if hasSub lpat grp && !(afterq.dropWhile (· ≠ '"')).isEmpty then
      some grp
    else none
  else none

/-- Backtracking search for the `action="` part after `<form`: the
regex's greedy `[^>]*` tries the rightmost start position first and only
positions not preceded by a `>` are reachable. -/
def searchActionRight : List Char → Option (List Char)
  | [] => none
  | c :: cs =>
    match (if c ≠ '>' then searchActionRight cs else none) with
    | some r => some r
    | none => tryActionHere (c :: cs)

/-- Leftmost-position search of
`re.search(r'<form[^>]*action="([^"]*login-actions/authenticate[^"]*)"', s)`
(oauth2.py line 68–69): try each position left to right; at a position
starting with `<form`, look for the `action="` group to its right. -/
def findFormAction : List Char → Option (List Char)
  | [] => none
  | c :: cs =>
    match (if fpat.isPrefixOf (c :: cs) then searchActionRight ((c :: cs).drop 5) else none) with
    | some r => some r
    | none => findFormAction cs

/-- Python `html.unescape`, modelled for the `&amp;` entity — the only
HTML entity occurring in the action URLs considered (other text passes
through unchanged). -/
def htmlUnescape : List Char → List Char
  | '&' :: 'a' :: 'm' :: 'p' :: ';' :: rest => '&' :: htmlUnescape rest
  | c :: rest => c :: htmlUnescape rest
  | [] => []

/-- Method `_extract_form_action` (oauth2.py lines 65–80): regex search,
HTML-entity decoding, and resolution of root-relative action URLs
against `https://id.laddel.no`. -/
def extract_form_action (html_content : List Char) : Option (List Char) :=
  match findFormAction html_content with
  | some action_url =>
    let u := htmlUnescape action_url
    some (if u.head? = some '/' then "https://id.laddel.no".data ++ u else u)
  | none => none

/-- Query component of `urllib.parse.urlparse`: the part after the first
`?` of the text before the first `#` (empty when there is no `?`). -/
def urlQuery (u : List Char) : List Char :=
  ((u.takeWhile (· ≠ '#')).dropWhile (· ≠ '?')).drop 1

/-- Numeric value of a hexadecimal digit. -/
def hexDigit? (c : Char) : Option Nat :=
  if '0' ≤ c ∧ c ≤ '9' then some (c.toNat - '0'.toNat)
  else if 'a' ≤ c ∧ c ≤ 'f' then some (c.toNat - 'a'.toNat + 10)
  else if 'A' ≤ c ∧ c ≤ 'F' then some (c.toNat - 'A'.toNat + 10)
  else none

/-- Python `urllib.parse.unquote_plus` modelled over ASCII: `+` becomes
a space, `%XX` with valid hex digits decodes to the character with that
code, and an invalid `%` sequence keeps the literal `%`. -/
def unquotePlus : List Char → List Char
  | [] => []
  | '+' :: rest => ' ' :: unquotePlus rest
  | '%' :: a :: b :: rest2 =>
    (match hexDigit? a, hexDigit? b with
     | some x, some y => Char.ofNat (16 * x + y) :: unquotePlus rest2
     | _, _ => '%' :: unquotePlus (a :: b :: rest2))
  | '%' :: rest => '%' :: unquotePlus rest
  | c :: rest => c :: unquotePlus rest

/-- One `name=value` field of a query string under
`urllib.parse.parse_qs` defaults: empty fields, fields with no `=`, and
fields with an empty value are all skipped; name and value are
plus/percent-decoded. -/
def qsPair? (field : List Char) : Option (List Char × List Char) :=
  if field.isEmpty then none
  else
    match field.dropWhile (· ≠ '=') with
    | [] => none
    | _ :: value =>
      if value.isEmpty then none
      else some (unquotePlus (field.takeWhile (· ≠ '=')), unquotePlus value)

/-- Python `qs.split('&')` as `parse_qs` performs it (the only
separator since Python 3.10). -/
def splitAmp : List Char → List (List Char)
  | [] => [[]]
  | '&' :: rest => [] :: splitAmp rest
  | c :: rest =>
    match splitAmp rest with
    | f :: fs => (c :: f) :: fs
    | [] => [[c]]

/-- Python `parse_qs(qs).get(key, [''])[0]`: the first value bound to
`key` in the query string, or the default. -/
def parse_qs_first (qs : List Char) (key : List Char) (d : List Char) : List Char :=
  match ((splitAmp qs).filterMap qsPair?).find? (fun p => p.fst == key) with
  | some p => p.snd
  | none => d

/-- The four login-session parameters extracted by
`_get_session_parameters`. -/
structure SessionParams where
  session_code : List Char
  execution : List Char
  tab_id : List Char
  client_data : List Char
deriving DecidableEq, Repr

/-- Method `_get_session_parameters`, from the point where the
authorization page's HTML is in hand (oauth2.py lines 176–197): extract
the form action URL (raising when none is found), parse its query
string, pull out the four parameters with `''` as default, and raise
when `session_code`, `execution` or `tab_id` is empty — `client_data`
is not checked. -/
def get_session_parameters (html_content : List Char) :
    Except Unit SessionParams :=
  match extract_form_action html_content with
  | none => Except.error ()
  | some url =>
    let q := urlQuery url
    let p : SessionParams :=
      { session_code := parse_qs_first q "session_code".data []
        execution := parse_qs_first q "execution".data []
        tab_id := parse_qs_first q "tab_id".data []
        client_data := parse_qs_first q "client_data".data [] }
    if p.session_code.isEmpty || p.execution.isEmpty || p.tab_id.isEmpty then
      Except.error ()
    else
      Except.ok p

/-- Concrete entry data used by witnesses. -/
def edFix : EntryData := { refresh_token := some "RT", access_token := some "AT", expires_in := some 3600 }

/-- Concrete coordinator state used by witnesses: valid tokens, empty
caches, idle polling. -/
def stFix : CoordState :=
  { refresh_token := some "RT", access_token := some "AT",
    token_expires := some 10000, entry_data := edFix,
    is_charging := false, last_session_id := none, latest_charger_id := none,
    facility_cache := [], facility_cache_time := none,
    latest_chargers_cache := none, latest_chargers_cache_time := none,
    subscription_cache := none, subscription_cache_time := none,
    update_interval := DEFAULT_SCAN_INTERVAL }

/-- Failing input for C5: a tracked session id `abc-123` followed by a
cycle whose session payload is `None`. The source sets
`self._last_session_id = current_session_id` before the `elif` tests
`self._last_session_id`, so the session-end branch reads the freshly
overwritten (falsy) value and the end transition is never registered:
the update returns no `SessionEvent.ended`. -/
def stC5 : CoordState := { stFix with last_session_id := some (Json.str "abc-123") }

/-- Concrete token response carrying a rotated refresh token. -/
def tokFix : TokenResponse :=
  { access_token := some "AT2", expires_in := some 600, refresh_token := some "RT2" }

/-- Concrete token response with no `refresh_token` field. -/
def tokNoRT : TokenResponse :=
  { access_token := some "AT2", expires_in := some 600, refresh_token := none }

/-- Charging condition as the claim words it (spec side, for comparison
with the code): the payload exists (is truthy) with a session type whose
uppercasing is `ACTIVE` and operating mode exactly `CHARGING`. -/
def specIsCharging : Option Json → Bool
  | some (Json.obj kvs) =>
    (Json.obj kvs).truthy &&
    (match Json.lookupKey kvs "type" with
     | some (Json.str t) => pyUpper t == "ACTIVE"
     | _ => false) &&
    (match Json.lookupKey kvs "chargerOperatingMode" with
     | some (Json.str m) => m == "CHARGING"
     | _ => false)
  | _ => false

/-- Fold of `_update_charging_state` over the session payloads of
successive coordinator cycles. -/
def run_charging_updates (st : CoordState) : List (Option Json) → Except Unit CoordState
  | [] => Except.ok st
  | p :: ps =>
    match update_charging_state st p with
    | Except.ok (st', _) => run_charging_updates st' ps
    | Except.error e => Except.error e

/-- Session payload of an active charging session. -/
def sessActiveFix : Json :=
  Json.obj [("type", Json.str "ACTIVE"), ("chargerOperatingMode", Json.str "CHARGING"),
            ("sessionId", Json.str "s1")]

/-- Session payload of a completed session. -/
def sessDoneFix : Json :=
  Json.obj [("type", Json.str "COMPLETED"), ("sessionId", Json.str "s1")]

/-- State after feeding the active payload to the tracker from `stFix`. -/
def stC6a : CoordState :=
  { stFix with is_charging := true, update_interval := CHARGING_SCAN_INTERVAL,
               last_session_id := some (Json.str "s1") }

/-- State after feeding `none` then the completed payload from `stFix`. -/
def stC6b : CoordState :=
  { stFix with last_session_id := some (Json.str "s1") }

/-- Facility payload for id `A`. -/
def facA : Json := Json.obj [("facilityName", Json.str "A")]

/-- Facility payload for id `B`. -/
def facB : Json := Json.obj [("facilityName", Json.str "B")]

/-- Oracle where every request fails. -/
def oErr : FetchOracle :=
  { token := Except.error (), current_session := Except.error (),
    subscription := Except.error (),
    facility := fun _ => Except.error (),
    latest_chargers := Except.error (),
    operating_mode := fun _ => Except.error (),
    recent_sessions := Except.error () }

/-- Oracle serving facility info for ids `A` and `B` and failing all
other requests. -/
def oC2 : FetchOracle :=
  { oErr with
    facility := fun fid =>
      if fid = "A" then Except.ok facA
      else if fid = "B" then Except.ok facB else Except.error () }

/-- Truthy cached payload used by the cache witnesses. -/
def vC2 : Json := Json.obj [("x", Json.num 1)]

/-- State with truthy cache entries stamped at time 0 for all three
cached resources. -/
def stCacheFix : CoordState :=
  { stFix with
    subscription_cache := some vC2, subscription_cache_time := some 0,
    latest_chargers_cache := some vC2, latest_chargers_cache_time := some 0,
    facility_cache := [("A", facA)], facility_cache_time := some 0 }

/-- Subscription payload carrying one active subscription at facility
id `F1`. -/
def subFix : Json :=
  Json.obj [("activeSubscriptions", Json.arr [Json.obj [("facilityId", Json.str "F1")]])]

/-- Oracle for the C1 scenario: the current-session fetch raises, the
subscription and facility fetches succeed, everything else fails. -/
def oC1 : FetchOracle :=
  { oErr with
    subscription := Except.ok subFix,
    facility := fun fd => if fd = "F1" then Except.ok facA else Except.error () }

/-- Login page whose form action has an empty `client_data` parameter
but non-empty `session_code`, `execution` and `tab_id`. -/
def docCD : List Char :=
  ("<form action=\"/realms/x/login-actions/authenticate?session_code=A&amp;execution=B&amp;tab_id=C&amp;client_data=\">").data

/-- Login page whose form action has an empty `tab_id` parameter. -/
def docTab : List Char :=
  ("<form action=\"/realms/x/login-actions/authenticate?session_code=A&amp;execution=B&amp;tab_id=&amp;client_data=D\">").data

/-- The URL extracted from `docTab`. -/
def urlTab : List Char :=
  ("https://id.laddel.no/realms/x/login-actions/authenticate?session_code=A&execution=B&tab_id=&client_data=D").data

/-- Root-relative action URL of the provider's login form, with
HTML-entity-encoded ampersands, carrying the four session parameters. -/
def relAction (A B C D : List Char) : List Char :=
  "/realms/x/login-actions/authenticate?session_code=".data ++ A ++
  "&amp;execution=".data ++ B ++ "&amp;tab_id=".data ++ C ++
  "&amp;client_data=".data ++ D

/-- Absolute form of the same action URL. -/
def absAction (A B C D : List Char) : List Char :=
  "https://id.laddel.no".data ++ relAction A B C D

/-- An HTML document containing a login form whose action attribute is
`action`, between arbitrary surrounding markup `pre` and `post`. -/
def formDoc (action pre post : List Char) : List Char :=
  pre ++ "<form id=\"login\" action=\"".data ++ action ++ "\" method=\"post\">".data ++ post

/-- Characters that may appear in the action URLs considered: ASCII
alphanumerics plus the URL punctuation of the template. -/
def urlChar (c : Char) : Bool :=
  c.isAlphanum || c ∈ (['/', '?', '=', '&', ';', '_', ':', '.', '-'] : List Char)

/-- Template text between `<form` and the `action="` attribute. -/
def formPfx : List Char := " id=\"login\" ".data

/-- Template text after the URL up to (not including) the closing `>`. -/
def formTpre : List Char := "\" method=\"post\"".data

/-- The action URL after HTML-entity decoding: the `&amp;` entities have
become plain ampersands. -/
def decodedRel (A B C D : List Char) : List Char :=
  "/realms/x/login-actions/authenticate?session_code=".data ++ A ++
  "&execution=".data ++ B ++ "&tab_id=".data ++ C ++ "&client_data=".data ++ D

/-- Query string of the decoded action URL, as `parse_qs` receives it. -/
def qsFour (A B C D : List Char) : List Char :=
  "session_code=".data ++ A ++ "&execution=".data ++ B ++
  "&tab_id=".data ++ C ++ "&client_data=".data ++ D

/-- C3: for every combination of token presence, expiry knowledge and
current time, `_token_needs_refresh` returns true iff the access token
is absent (falsy), the expiry instant is unknown, or
`now ≥ expiry − 30 s` — true exactly at the 30-second boundary
included — and false otherwise. -/
theorem token_needs_refresh_iff (st : CoordState) (now : Int) :
    token_needs_refresh st now = true ↔
      (strOptTruthy st.access_token = false ∨ st.token_expires = none ∨
        ∃ exp, st.token_expires = some exp ∧ now ≥ exp - 30) := by
  unfold token_needs_refresh
  by_cases h1 : strOptTruthy st.access_token
  · cases h2 : st.token_expires with
    | none => simp [h1, h2]
    | some exp => simp [h1, h2]
  · simp [h1]

/-- C5: evaluating `_update_charging_state` at the failing input — a
previously tracked session id and a `None` payload — yields no event at
all (in particular no session-end transition), while the claim requires
a session-end transition to be registered. -/
theorem session_end_transition_not_registered :
    update_charging_state stC5 none =
      Except.ok ({ stC5 with last_session_id := none }, none) := rfl

/-- C7: a successful refresh sets the expiry to `now + expires_in`
(defaulting to 300 s when the response omits `expires_in`) and replaces
the stored refresh token exactly when the response carries a
`refresh_token` field, keeping it unchanged otherwise. -/
theorem refresh_updates_expiry_and_refresh_token (st : CoordState) (now : Int)
    (tok : TokenResponse) (h : strOptTruthy st.refresh_token = true) :
    ∃ st' wrote,
      refresh_access_token st now (Except.ok tok) = Except.ok (st', wrote) ∧
      st'.token_expires = some (now + tok.expires_in.getD 300) ∧
      st'.refresh_token =
        (match tok.refresh_token with
         | some rt => some rt
         | none => st.refresh_token) := by
  unfold refresh_access_token
  cases htr : tok.refresh_token <;> simp [h, htr]

/-- Witness for C7 at a concrete state and response. -/
theorem refresh_updates_expiry_witness :
    ∃ st' wrote,
      refresh_access_token stFix 1000 (Except.ok tokFix) = Except.ok (st', wrote) ∧
      st'.token_expires = some (1000 + tokFix.expires_in.getD 300) ∧
      st'.refresh_token =
        (match tokFix.refresh_token with
         | some rt => some rt
         | none => stFix.refresh_token) :=
  refresh_updates_expiry_and_refresh_token stFix 1000 tokFix (by decide)

/-- Counterexample to C8: a successful refresh whose response carries no
`refresh_token` completes (new access token and expiry in memory) but
never invokes `async_update_entry` — the second component `false` —
so nothing is written back to the external configuration store,
contradicting the claim that every successful refresh is persisted. -/
theorem refresh_no_writeback_cex :
    refresh_access_token stFix 0 (Except.ok tokNoRT) =
      Except.ok ({ stFix with access_token := some "AT2", token_expires := some 600 }, false) := rfl

/-- C8 amended: the updated token set is written back to the external
configuration store exactly when the refresh response carries a new
`refresh_token` (and then the persisted entry holds the rotated refresh
token, the new access token and the new `expires_in`); when the field is
absent, the config entry is left untouched and only in-memory state
changes. -/
theorem refresh_writeback_iff_new_refresh_token (st : CoordState) (now : Int)
    (tok : TokenResponse) (h : strOptTruthy st.refresh_token = true) :
    ∃ st' wrote,
      refresh_access_token st now (Except.ok tok) = Except.ok (st', wrote) ∧
      (wrote = true ↔ tok.refresh_token.isSome = true) ∧
      (∀ rt, tok.refresh_token = some rt →
        st'.entry_data =
          { refresh_token := some rt,
            access_token := tok.access_token,
            expires_in := some (tok.expires_in.getD 300) }) ∧
      (tok.refresh_token = none → st'.entry_data = st.entry_data) := by
  unfold refresh_access_token
  cases htr : tok.refresh_token <;> simp [h, htr]

/-- Witness for the amended C8 at a concrete state and response. -/
theorem refresh_writeback_witness :
    ∃ st' wrote,
      refresh_access_token stFix 0 (Except.ok tokFix) = Except.ok (st', wrote) ∧
      (wrote = true ↔ tokFix.refresh_token.isSome = true) ∧
      (∀ rt, tokFix.refresh_token = some rt →
        st'.entry_data =
          { refresh_token := some rt,
            access_token := tokFix.access_token,
            expires_in := some (tokFix.expires_in.getD 300) }) ∧
      (tokFix.refresh_token = none → st'.entry_data = stFix.entry_data) :=
  refresh_writeback_iff_new_refresh_token stFix 0 tokFix (by decide)

/-- C10: calling `start_charging_session` with no charger argument while
no latest-used charger id is remembered returns `False` with zero
network requests; and for any state, argument and network outcome the
method returns a Bool without raising. -/
theorem start_session_no_charger_and_total (st st₂ : CoordState)
    (post post₂ : String → Except Unit Nat) (cid : Option Json)
    (h : st.latest_charger_id = none) :
    start_charging_session st none post = (Except.ok false, 0) ∧
    ∃ b n, start_charging_session st₂ cid post₂ = (Except.ok b, n) := by
  constructor
  · unfold start_charging_session
    by_cases h1 : strOptTruthy st.access_token <;> simp [h1, h, optTruthy]
  · unfold start_charging_session
    by_cases h1 : strOptTruthy st₂.access_token
    · by_cases h0 : optTruthy cid
      · cases hp : post₂ (Json.pyStr (cid.getD Json.null)) with
        | ok status => exact ⟨status == 200 || status == 204, 1, by simp [h1, h0, hp]⟩
        | error e => exact ⟨false, 1, by simp [h1, h0, hp]⟩
      · by_cases h2 : optTruthy st₂.latest_charger_id
        · cases hp : post₂ (Json.pyStr (st₂.latest_charger_id.getD Json.null)) with
          | ok status => exact ⟨status == 200 || status == 204, 1, by simp [h1, h0, h2, hp]⟩
          | error e => exact ⟨false, 1, by simp [h1, h0, h2, hp]⟩
        · exact ⟨false, 0, by simp [h1, h0, h2]⟩
    · exact ⟨false, 0, by simp [h1]⟩

/-- Witness for C10 at concrete states (no remembered charger id in the
first; a transport failure for the second call's POST). -/
theorem start_session_witness :
    start_charging_session stFix none (fun _ => Except.ok 200) = (Except.ok false, 0) ∧
    ∃ b n, start_charging_session stFix (some (Json.str "ch1")) (fun _ => Except.error ()) = (Except.ok b, n) :=
  start_session_no_charger_and_total stFix stFix (fun _ => Except.ok 200)
    (fun _ => Except.error ()) (some (Json.str "ch1")) rfl

/-- Support lemma: a falsy payload never yields the charging state. -/
theorem specIsCharging_of_not_truthy (sd : Json) (ht : sd.truthy = false) :
    specIsCharging (some sd) = false := by
  cases sd <;> simp_all [specIsCharging]

/-- Relation between one successful `_update_charging_state` call and
the charging flag and poll interval it leaves behind: the new
`is_charging` equals the claim's charging condition, a toggle sets the
interval to the active or idle value according to the new flag, and no
toggle leaves the interval unchanged. -/
theorem update_ok_charging (st : CoordState) (p : Option Json)
    (st' : CoordState) (ev : Option SessionEvent)
    (h : update_charging_state st p = Except.ok (st', ev)) :
    st'.is_charging = specIsCharging p ∧
    (st'.is_charging ≠ st.is_charging →
      st'.update_interval =
        (if st'.is_charging then CHARGING_SCAN_INTERVAL else DEFAULT_SCAN_INTERVAL)) ∧
    (st'.is_charging = st.is_charging → st'.update_interval = st.update_interval) := by
  have h' : Except.map Prod.fst (update_charging_state st p) = Except.ok st' := by
    rw [h]; rfl
  clear h
  unfold update_charging_state at h'
  cases p with
  | none =>
    simp only [Except.bind, bind] at h'
    by_cases hc : st.is_charging <;> cases hl : st.last_session_id <;>
      simp [hc, hl, optNe, Except.map, specIsCharging] at h' <;>
      (subst h'; simp [hc, specIsCharging])
  | some sd =>
    by_cases ht : sd.truthy
    · cases sd with
      | obj kvs =>
        simp only [Json.getD?, Json.get?, Json.asUpper, Except.bind, bind, ht, if_true] at h'
        cases hlt : Json.lookupKey kvs "type" with
        | none =>
          have hT : (pyUpper "" == "ACTIVE") = false := by decide
          simp only [hlt, Option.getD_none, hT, Bool.false_and] at h'
          by_cases hc : st.is_charging <;>
            by_cases hne : optNe (Json.denull (Json.lookupKey kvs "sessionId")) st.last_session_id <;>
            simp [hc, hne, Except.map] at h' <;>
            (subst h'; simp [hc, specIsCharging, ht, hlt])
        | some v =>
          cases v with
          | str t =>
            simp only [hlt, Option.getD_some] at h'
            by_cases hA : (pyUpper t == "ACTIVE") = true
            · cases hlm : Json.lookupKey kvs "chargerOperatingMode" with
              | none =>
                have hM : Json.beq (Json.str "") (Json.str "CHARGING") = false := rfl
                simp only [hlm, Option.getD_none, hA, Bool.true_and, hM] at h'
                by_cases hc : st.is_charging <;>
                  by_cases hne : optNe (Json.denull (Json.lookupKey kvs "sessionId")) st.last_session_id <;>
                  simp [hc, hne, Except.map] at h' <;>
                  (subst h'; simp [hc, specIsCharging, ht, hlt, hlm, hA])
              | some v2 =>
                cases v2 with
                | str m =>
                  by_cases hM : (m == "CHARGING") = true <;>
                    simp only [hlm, Option.getD_some, hA, Bool.true_and, Json.beq, hM] at h' <;>
                    by_cases hc : st.is_charging <;>
                    by_cases hne : optNe (Json.denull (Json.lookupKey kvs "sessionId")) st.last_session_id <;>
                    simp [hc, hne, Except.map] at h' <;>
                    (subst h'; simp [hc, specIsCharging, ht, hlt, hlm, hA, hM])
                | null =>
                  simp only [hlm, Option.getD_some, hA, Bool.true_and, Json.beq] at h'
                  by_cases hc : st.is_charging <;>
                    by_cases hne : optNe (Json.denull (Json.lookupKey kvs "sessionId")) st.last_session_id <;>
                    simp [hc, hne, Except.map] at h' <;>
                    (subst h'; simp [hc, specIsCharging, ht, hlt, hlm, hA])
                | bool b =>
                  simp only [hlm, Option.getD_some, hA, Bool.true_and, Json.beq] at h'
                  by_cases hc : st.is_charging <;>
                    by_cases hne : optNe (Json.denull (Json.lookupKey kvs "sessionId")) st.last_session_id <;>
                    simp [hc, hne, Except.map] at h' <;>
                    (subst h'; simp [hc, specIsCharging, ht, hlt, hlm, hA])
                | num n =>
                  simp only [hlm, Option.getD_some, hA, Bool.true_and, Json.beq] at h'
                  by_cases hc : st.is_charging <;>
                    by_cases hne : optNe (Json.denull (Json.lookupKey kvs "sessionId")) st.last_session_id <;>
                    simp [hc, hne, Except.map] at h' <;>
                    (subst h'; simp [hc, specIsCharging, ht, hlt, hlm, hA])
                | arr l =>
                  simp only [hlm, Option.getD_some, hA, Bool.true_and, Json.beq] at h'
                  by_cases hc : st.is_charging <;>
                    by_cases hne : optNe (Json.denull (Json.lookupKey kvs "sessionId")) st.last_session_id <;>
                    simp [hc, hne, Except.map] at h' <;>
                    (subst h'; simp [hc, specIsCharging, ht, hlt, hlm, hA])
                | obj kvs2 =>
                  simp only [hlm, Option.getD_some, hA, Bool.true_and, Json.beq] at h'
                  by_cases hc : st.is_charging <;>
                    by_cases hne : optNe (Json.denull (Json.lookupKey kvs "sessionId")) st.last_session_id <;>
                    simp [hc, hne, Except.map] at h' <;>
                    (subst h'; simp [hc, specIsCharging, ht, hlt, hlm, hA])
            · simp only [Bool.not_eq_true] at hA
              simp only [hA, Bool.false_and] at h'
              by_cases hc : st.is_charging <;>
                by_cases hne : optNe (Json.denull (Json.lookupKey kvs "sessionId")) st.last_session_id <;>
                simp [hc, hne, Except.map] at h' <;>
                (subst h'; simp [hc, specIsCharging, ht, hlt, hA])
          | null => simp only [hlt, Option.getD_some] at h'; simp [Except.map] at h'
          | bool b => simp only [hlt, Option.getD_some] at h'; simp [Except.map] at h'
          | num n => simp only [hlt, Option.getD_some] at h'; simp [Except.map] at h'
          | arr l => simp only [hlt, Option.getD_some] at h'; simp [Except.map] at h'
          | obj kvs2 => simp only [hlt, Option.getD_some] at h'; simp [Except.map] at h'
      | null => simp [Json.truthy] at ht
      | bool b => simp_all [Json.getD?, Except.bind, bind, Except.map]
      | num n => simp_all [Json.getD?, Except.bind, bind, Except.map]
      | str s => simp_all [Json.getD?, Except.bind, bind, Except.map]
      | arr l => simp_all [Json.getD?, Except.bind, bind, Except.map]
    · simp only [Bool.not_eq_true] at ht
      simp only [Except.bind, bind, ht, if_false, Bool.false_eq_true] at h'
      by_cases hc : st.is_charging <;> cases hl : st.last_session_id <;>
        simp [hc, hl, optNe, Except.map] at h' <;>
        (subst h'; simp [hc, specIsCharging_of_not_truthy sd ht])

/-- C6: after every successful tracker update, `is_charging` is true
exactly when the session payload exists (is truthy) with a session type
that uppercases to `ACTIVE` and operating mode `CHARGING`
(`specIsCharging`); whenever the flag toggles between consecutive
updates, the poll interval is set to the short active interval when now
charging and to the long idle interval when no longer charging
(unchanged when the flag does not toggle); and a payload sequence that
never charges, started from the idle state, leaves the interval at the
idle `DEFAULT_SCAN_INTERVAL`. -/
theorem charging_state_and_interval :
    (∀ st p st' ev, update_charging_state st p = Except.ok (st', ev) →
        st'.is_charging = specIsCharging p) ∧
    (∀ st p st' ev, update_charging_state st p = Except.ok (st', ev) →
        (st'.is_charging ≠ st.is_charging →
          st'.update_interval =
            (if st'.is_charging then CHARGING_SCAN_INTERVAL else DEFAULT_SCAN_INTERVAL)) ∧
        (st'.is_charging = st.is_charging → st'.update_interval = st.update_interval)) ∧
    (∀ ps st st', st.is_charging = false → st.update_interval = DEFAULT_SCAN_INTERVAL →
        (∀ p ∈ ps, specIsCharging p = false) →
        run_charging_updates st ps = Except.ok st' →
        st'.is_charging = false ∧ st'.update_interval = DEFAULT_SCAN_INTERVAL) := by
  refine ⟨fun st p st' ev h => (update_ok_charging st p st' ev h).1,
          fun st p st' ev h => (update_ok_charging st p st' ev h).2, ?_⟩
  intro ps
  induction ps with
  | nil =>
    intro st st' h1 h2 _ hrun
    simp only [run_charging_updates] at hrun
    injection hrun with h3
    subst h3
    exact ⟨h1, h2⟩
  | cons p ps ih =>
    intro st st' h1 h2 hall hrun
    simp only [run_charging_updates] at hrun
    cases hu : update_charging_state st p with
    | error e => rw [hu] at hrun; exact absurd hrun (by simp)
    | ok pr =>
      obtain ⟨st1, ev1⟩ := pr
      rw [hu] at hrun
      have hspec := update_ok_charging st p st1 ev1 hu
      have hcf : st1.is_charging = false := by
        rw [hspec.1]; exact hall p (List.mem_cons_self p ps)
      have hint : st1.update_interval = DEFAULT_SCAN_INTERVAL := by
        rw [hspec.2.2 (by rw [hcf, h1]), h2]
      exact ih st1 st' hcf hint (fun q hq => hall q (List.mem_cons_of_mem p hq)) hrun

/-- Witness for C6: an active payload from the idle state toggles the
flag on and sets the short interval; a never-charging sequence keeps the
idle interval. -/
theorem charging_state_witness :
    (∃ st1 ev1, update_charging_state stFix (some sessActiveFix) = Except.ok (st1, ev1) ∧
      st1.is_charging = specIsCharging (some sessActiveFix) ∧
      (st1.is_charging ≠ stFix.is_charging →
        st1.update_interval =
          (if st1.is_charging then CHARGING_SCAN_INTERVAL else DEFAULT_SCAN_INTERVAL))) ∧
    (∃ st2, run_charging_updates stFix [none, some sessDoneFix] = Except.ok st2 ∧
      st2.is_charging = false ∧ st2.update_interval = DEFAULT_SCAN_INTERVAL) := by
  constructor
  · have h : update_charging_state stFix (some sessActiveFix) =
        Except.ok (stC6a, some (SessionEvent.started (some (Json.str "s1")))) := rfl
    exact ⟨_, _, h, charging_state_and_interval.1 _ _ _ _ h,
      fun hne => (charging_state_and_interval.2.1 _ _ _ _ h).1 hne⟩
  · have h2 : run_charging_updates stFix [none, some sessDoneFix] = Except.ok stC6b := rfl
    exact ⟨_, h2, charging_state_and_interval.2.2 [none, some sessDoneFix] stFix _
      rfl rfl (by decide) h2⟩

/-- Counterexample to C2 as stated: fetch facility `A` at t = 0 (one
network fetch, entry stored), fetch facility `B` at t = 3000 (refreshing
the single shared `_facility_cache_time`), then request `A` again at
t = 4200 with the 1-hour (3600 s) TTL. Entry `A`'s own fetch time is 0,
so now − fetch time = 4200 ≥ 3600 and the claim requires exactly one
fetch; the code instead serves the cached value with zero fetches,
because freshness is judged by the shared timestamp (4200 − 3000 <
3600), not by the entry's own fetch time. -/
theorem facility_cache_shared_timestamp_cex :
    (4200 : Int) - 0 ≥ 3600 ∧
    (let r1 := fetch_facility_info_cached stFix oC2 0 "A"
     let r2 := fetch_facility_info_cached r1.2.1 oC2 3000 "B"
     let r3 := fetch_facility_info_cached r2.2.1 oC2 4200 "A"
     r1.2.2 = 1 ∧ r3.1 = Except.ok facA ∧ r3.2.2 = 0) :=
  ⟨by norm_num, rfl, rfl, rfl⟩

/-- C2 amended: per-resource cache behavior as the code implements it.
For the subscription and latest-chargers caches (where an entry "exists"
only when the cached value is truthy): a call within the TTL of a truthy
entry returns it with zero network fetches; a call with a missing,
falsy, or expired entry issues exactly one fetch; a fetch failure with
an existing (possibly stale) truthy entry returns the stale value
without raising and leaves the state unchanged; a fetch failure with no
truthy entry propagates the error. For the facility cache the same four
behaviors hold with freshness judged against the single shared
`_facility_cache_time` — the time of the most recent facility fetch of
any id — rather than the entry's own fetch time, and with existence
meaning dict membership of the id. -/
theorem cache_behavior_amended :
    (∀ st o now v t, st.subscription_cache = some v → v.truthy = true →
        st.subscription_cache_time = some t → now - t < 86400 →
        fetch_subscription_data_cached st o now = (Except.ok v, st, 0)) ∧
    (∀ st o now, strOptTruthy st.access_token = true →
        (optTruthy st.subscription_cache = false ∨ st.subscription_cache_time = none ∨
          ∃ t, st.subscription_cache_time = some t ∧ 86400 ≤ now - t) →
        (fetch_subscription_data_cached st o now).2.2 = 1) ∧
    (∀ st o now v, strOptTruthy st.access_token = true →
        o.subscription = Except.error () →
        st.subscription_cache = some v → v.truthy = true →
        (fetch_subscription_data_cached st o now).1 = Except.ok v ∧
        (fetch_subscription_data_cached st o now).2.1 = st) ∧
    (∀ st o now, strOptTruthy st.access_token = true →
        o.subscription = Except.error () →
        optTruthy st.subscription_cache = false →
        fetch_subscription_data_cached st o now = (Except.error (), st, 1)) ∧
    (∀ st o now v t, st.latest_chargers_cache = some v → v.truthy = true →
        st.latest_chargers_cache_time = some t → now - t < 900 →
        fetch_latest_chargers_cached st o now = (Except.ok v, st, 0)) ∧
    (∀ st o now, strOptTruthy st.access_token = true →
        (optTruthy st.latest_chargers_cache = false ∨ st.latest_chargers_cache_time = none ∨
          ∃ t, st.latest_chargers_cache_time = some t ∧ 900 ≤ now - t) →
        (fetch_latest_chargers_cached st o now).2.2 = 1) ∧
    (∀ st o now v, strOptTruthy st.access_token = true →
        o.latest_chargers = Except.error () →
        st.latest_chargers_cache = some v → v.truthy = true →
        (fetch_latest_chargers_cached st o now).1 = Except.ok v ∧
        (fetch_latest_chargers_cached st o now).2.1 = st) ∧
    (∀ st o now, strOptTruthy st.access_token = true →
        o.latest_chargers = Except.error () →
        optTruthy st.latest_chargers_cache = false →
        fetch_latest_chargers_cached st o now = (Except.error (), st, 1)) ∧
    (∀ st o now fid v t, Json.lookupKey st.facility_cache fid = some v →
        st.facility_cache_time = some t → now - t < 3600 →
        fetch_facility_info_cached st o now fid = (Except.ok v, st, 0)) ∧
    (∀ st o now fid, strOptTruthy st.access_token = true →
        (Json.lookupKey st.facility_cache fid = none ∨ st.facility_cache_time = none ∨
          ∃ t, st.facility_cache_time = some t ∧ 3600 ≤ now - t) →
        (fetch_facility_info_cached st o now fid).2.2 = 1) ∧
    (∀ st o now fid v, strOptTruthy st.access_token = true →
        o.facility fid = Except.error () →
        Json.lookupKey st.facility_cache fid = some v →
        (fetch_facility_info_cached st o now fid).1 = Except.ok v ∧
        (fetch_facility_info_cached st o now fid).2.1 = st) ∧
    (∀ st o now fid, strOptTruthy st.access_token = true →
        o.facility fid = Except.error () →
        Json.lookupKey st.facility_cache fid = none →
        fetch_facility_info_cached st o now fid = (Except.error (), st, 1)) := by
  refine ⟨?_, ?_, ?_, ?_, ?_, ?_, ?_, ?_, ?_, ?_, ?_, ?_⟩
  · intro st o now v t h1 h2 h3 h4
    unfold fetch_subscription_data_cached
    simp [h1, h2, h3, h4, optTruthy]
  · intro st o now htk hmiss
    by_cases hcond : (optTruthy st.subscription_cache && st.subscription_cache_time.isSome
        && decide (now - st.subscription_cache_time.getD 0 < 86400)) = true
    · exfalso
      rcases hmiss with hm | hm | ⟨t, ht, hge⟩
      · simp [hm] at hcond
      · simp [hm] at hcond
      · rw [ht] at hcond
        simp only [Bool.and_eq_true, decide_eq_true_eq, Option.getD_some] at hcond
        omega
    · unfold fetch_subscription_data_cached
      simp only [Bool.not_eq_true] at hcond
      simp only [hcond, Bool.false_eq_true, if_false]
      cases ho : o.subscription with
      | ok sd => simp [fetch_raw, htk, ho]
      | error e =>
        simp [fetch_raw, htk, ho]
        try (split <;> rfl)
  · intro st o now v htk hsub h1 h2
    unfold fetch_subscription_data_cached
    by_cases hcond : (optTruthy st.subscription_cache && st.subscription_cache_time.isSome
        && decide (now - st.subscription_cache_time.getD 0 < 86400)) = true
    · simp only [hcond]
      simp [h1]
    · simp only [Bool.not_eq_true] at hcond
      simp only [hcond, Bool.false_eq_true, if_false]
      simp [fetch_raw, htk, hsub, h1, h2, optTruthy]
  · intro st o now htk hsub hfalsy
    unfold fetch_subscription_data_cached
    have hcond : (optTruthy st.subscription_cache && st.subscription_cache_time.isSome
        && decide (now - st.subscription_cache_time.getD 0 < 86400)) = false := by
      simp [hfalsy]
    simp only [hcond, Bool.false_eq_true, if_false]
    simp [fetch_raw, htk, hsub, hfalsy]
  · intro st o now v t h1 h2 h3 h4
    unfold fetch_latest_chargers_cached
    simp [h1, h2, h3, h4, optTruthy]
  · intro st o now htk hmiss
    by_cases hcond : (optTruthy st.latest_chargers_cache && st.latest_chargers_cache_time.isSome
        && decide (now - st.latest_chargers_cache_time.getD 0 < 900)) = true
    · exfalso
      rcases hmiss with hm | hm | ⟨t, ht, hge⟩
      · simp [hm] at hcond
      · simp [hm] at hcond
      · rw [ht] at hcond
        simp only [Bool.and_eq_true, decide_eq_true_eq, Option.getD_some] at hcond
        omega
    · unfold fetch_latest_chargers_cached
      simp only [Bool.not_eq_true] at hcond
      simp only [hcond, Bool.false_eq_true, if_false]
      cases ho : o.latest_chargers with
      | ok sd => simp [fetch_raw, htk, ho]
      | error e =>
        simp [fetch_raw, htk, ho]
        try (split <;> rfl)
  · intro st o now v htk hch h1 h2
    unfold fetch_latest_chargers_cached
    by_cases hcond : (optTruthy st.latest_chargers_cache && st.latest_chargers_cache_time.isSome
        && decide (now - st.latest_chargers_cache_time.getD 0 < 900)) = true
    · simp only [hcond]
      simp [h1]
    · simp only [Bool.not_eq_true] at hcond
      simp only [hcond, Bool.false_eq_true, if_false]
      simp [fetch_raw, htk, hch, h1, h2, optTruthy]
  · intro st o now htk hch hfalsy
    unfold fetch_latest_chargers_cached
    have hcond : (optTruthy st.latest_chargers_cache && st.latest_chargers_cache_time.isSome
        && decide (now - st.latest_chargers_cache_time.getD 0 < 900)) = false := by
      simp [hfalsy]
    simp only [hcond, Bool.false_eq_true, if_false]
    simp [fetch_raw, htk, hch, hfalsy]
  · intro st o now fid v t h1 h2 h3
    unfold fetch_facility_info_cached
    simp [h1, h2, h3]
  · intro st o now fid htk hmiss
    by_cases hcond : ((Json.lookupKey st.facility_cache fid).isSome
        && st.facility_cache_time.isSome
        && decide (now - st.facility_cache_time.getD 0 < 3600)) = true
    · exfalso
      rcases hmiss with hm | hm | ⟨t, ht, hge⟩
      · simp [hm] at hcond
      · simp [hm] at hcond
      · rw [ht] at hcond
        simp only [Bool.and_eq_true, decide_eq_true_eq, Option.getD_some] at hcond
        omega
    · unfold fetch_facility_info_cached
      simp only [Bool.not_eq_true] at hcond
      simp only [hcond, Bool.false_eq_true, if_false]
      cases ho : o.facility fid with
      | ok fd => simp [fetch_raw, htk, ho]
      | error e =>
        simp [fetch_raw, htk, ho]
        try (split <;> rfl)
  · intro st o now fid v htk hfac h1
    unfold fetch_facility_info_cached
    by_cases hcond : ((Json.lookupKey st.facility_cache fid).isSome
        && st.facility_cache_time.isSome
        && decide (now - st.facility_cache_time.getD 0 < 3600)) = true
    · simp only [hcond]
      simp [h1]
    · simp only [Bool.not_eq_true] at hcond
      simp only [hcond, Bool.false_eq_true, if_false]
      simp [fetch_raw, htk, hfac, h1]
  · intro st o now fid htk hfac h1
    unfold fetch_facility_info_cached
    have hcond : ((Json.lookupKey st.facility_cache fid).isSome
        && st.facility_cache_time.isSome
        && decide (now - st.facility_cache_time.getD 0 < 3600)) = false := by
      simp [h1]
    simp only [hcond, Bool.false_eq_true, if_false]
    simp [fetch_raw, htk, hfac, h1]

/-- Witness for the amended C2 at concrete states, ids and oracles: each
of the twelve behaviors evaluated at time 100 with TTLs 86400/900/3600. -/
theorem cache_behavior_witness :
    fetch_subscription_data_cached stCacheFix oErr 100 = (Except.ok vC2, stCacheFix, 0) ∧
    (fetch_subscription_data_cached stFix oErr 100).2.2 = 1 ∧
    ((fetch_subscription_data_cached stCacheFix oErr 100).1 = Except.ok vC2 ∧
      (fetch_subscription_data_cached stCacheFix oErr 100).2.1 = stCacheFix) ∧
    fetch_subscription_data_cached stFix oErr 100 = (Except.error (), stFix, 1) ∧
    fetch_latest_chargers_cached stCacheFix oErr 100 = (Except.ok vC2, stCacheFix, 0) ∧
    (fetch_latest_chargers_cached stFix oErr 100).2.2 = 1 ∧
    ((fetch_latest_chargers_cached stCacheFix oErr 100).1 = Except.ok vC2 ∧
      (fetch_latest_chargers_cached stCacheFix oErr 100).2.1 = stCacheFix) ∧
    fetch_latest_chargers_cached stFix oErr 100 = (Except.error (), stFix, 1) ∧
    fetch_facility_info_cached stCacheFix oErr 100 "A" = (Except.ok facA, stCacheFix, 0) ∧
    (fetch_facility_info_cached stFix oErr 100 "A").2.2 = 1 ∧
    ((fetch_facility_info_cached stCacheFix oErr 100 "A").1 = Except.ok facA ∧
      (fetch_facility_info_cached stCacheFix oErr 100 "A").2.1 = stCacheFix) ∧
    fetch_facility_info_cached stFix oErr 100 "A" = (Except.error (), stFix, 1) :=
  ⟨cache_behavior_amended.1 stCacheFix oErr 100 vC2 0 rfl rfl rfl (by norm_num),
   cache_behavior_amended.2.1 stFix oErr 100 (by decide) (Or.inl rfl),
   cache_behavior_amended.2.2.1 stCacheFix oErr 100 vC2 (by decide) rfl rfl rfl,
   cache_behavior_amended.2.2.2.1 stFix oErr 100 (by decide) rfl rfl,
   cache_behavior_amended.2.2.2.2.1 stCacheFix oErr 100 vC2 0 rfl rfl rfl (by norm_num),
   cache_behavior_amended.2.2.2.2.2.1 stFix oErr 100 (by decide) (Or.inl rfl),
   cache_behavior_amended.2.2.2.2.2.2.1 stCacheFix oErr 100 vC2 (by decide) rfl rfl rfl,
   cache_behavior_amended.2.2.2.2.2.2.2.1 stFix oErr 100 (by decide) rfl rfl,
   cache_behavior_amended.2.2.2.2.2.2.2.2.1 stCacheFix oErr 100 "A" facA 0 rfl rfl (by norm_num),
   cache_behavior_amended.2.2.2.2.2.2.2.2.2.1 stFix oErr 100 "A" (by decide) (Or.inl rfl),
   cache_behavior_amended.2.2.2.2.2.2.2.2.2.2.1 stCacheFix oErr 100 "A" facA (by decide) rfl rfl,
   cache_behavior_amended.2.2.2.2.2.2.2.2.2.2.2 stFix oErr 100 "A" (by decide) rfl rfl⟩

/-- Feeding `None` to the charging-state tracker never raises and never
emits an event, and it touches only the charging-related attributes. -/
theorem update_charging_state_none_ok (st : CoordState) :
    ∃ st2, update_charging_state st none = Except.ok (st2, none) ∧
      st2.access_token = st.access_token ∧
      st2.subscription_cache = st.subscription_cache ∧
      st2.facility_cache = st.facility_cache := by
  unfold update_charging_state
  simp only [Except.bind, bind]
  by_cases hc : st.is_charging <;> cases hl : st.last_session_id <;>
    simp [hc, hl, optNe, optTruthy]

/-- When no refresh is needed, the access token is present and truthy. -/
theorem needs_refresh_false_token (st : CoordState) (now : Int)
    (h : token_needs_refresh st now = false) :
    strOptTruthy st.access_token = true := by
  by_cases ha : strOptTruthy st.access_token
  · exact ha
  · unfold token_needs_refresh at h
    rw [if_pos ha] at h
    exact absurd h (by simp)

/-- A `d.get(k)` yielding a non-`None` value implies `d[k]` yields the
same value. -/
theorem get?_some_item? (j : Json) (k : String) (v : Json)
    (h : j.get? k = Except.ok (some v)) : j.item? k = Except.ok v := by
  cases j <;> simp [Json.get?] at h
  case obj kvs =>
    cases hl : Json.lookupKey kvs k with
    | none => rw [hl] at h; simp [Json.denull] at h
    | some x =>
      rw [hl] at h
      cases x <;> simp [Json.denull] at h <;> simp_all [Json.item?, hl]

/-- C1: a coordinator cycle in which the current-session fetch raises
while the subscription fetch succeeds (yielding a facility id) and the
facility fetch succeeds completes without raising, returning a snapshot
whose `current_session` slice is `None` while the `subscription` and
`facility` slices hold the fetched values — the per-resource failure
never aborts the remaining steps (the chargers, operating-mode and
recent-sessions oracles are arbitrary, failing or not). Caches start
empty so the slices are the freshly fetched values. -/
theorem cycle_session_failure_isolated (st : CoordState) (o : FetchOracle) (now : Int)
    (subv subs s0 : Json) (fid : Json) (fkvs : List (String × Json))
    (htok : token_needs_refresh st now = false)
    (hsess : o.current_session = Except.error ())
    (hsubo : o.subscription = Except.ok subv)
    (hsc : st.subscription_cache = none)
    (hfc : st.facility_cache = [])
    (hsubt : subv.truthy = true)
    (hsubs : subv.get? "activeSubscriptions" = Except.ok (some subs))
    (hsubst : subs.truthy = true)
    (hhead : subs.head? = Except.ok s0)
    (hfid : s0.get? "facilityId" = Except.ok (some fid))
    (hfidt : fid.truthy = true)
    (hfac : o.facility (Json.pyStr fid) = Except.ok (Json.obj fkvs)) :
    ∃ snap st', async_update_data st o now = Except.ok (snap, st') ∧
      snap.current_session = some none ∧
      snap.subscription = some (some subv) ∧
      snap.facility = some (some (Json.obj fkvs)) := by
  have haccess := needs_refresh_false_token st now htok
  obtain ⟨st2, hu, hpa, hps, hpf⟩ := update_charging_state_none_ok st
  have hss : session_step st o = Except.ok (some none, st2) := by
    unfold session_step
    simp [fetch_raw, haccess, hsess, hu, Except.map]
  have hsubstep : subscription_step st2 o now none =
      (some (some subv),
       { st2 with subscription_cache := some subv, subscription_cache_time := some now },
       some fid) := by
    unfold subscription_step
    have hf : fetch_subscription_data_cached st2 o now =
        (Except.ok subv,
         { st2 with subscription_cache := some subv, subscription_cache_time := some now },
         1) := by
      unfold fetch_subscription_data_cached fetch_raw
      simp [hps, hsc, hpa, haccess, hsubo, optTruthy]
    rw [hf]
    have hitem := get?_some_item? subv "activeSubscriptions" subs hsubs
    simp [hsubt, hsubs, hsubst, optTruthy, hitem, hhead, hfid, Except.bind, bind]
  have hfacstep : facility_step
      { st2 with subscription_cache := some subv, subscription_cache_time := some now }
      o now (some fid) =
      (some (some (Json.obj fkvs)),
       { st2 with subscription_cache := some subv, subscription_cache_time := some now,
                  facility_cache := [(Json.pyStr fid, Json.obj fkvs)],
                  facility_cache_time := some now }) := by
    unfold facility_step
    have hf : fetch_facility_info_cached
        { st2 with subscription_cache := some subv, subscription_cache_time := some now }
        o now (Json.pyStr fid) =
        (Except.ok (Json.obj fkvs),
         { st2 with subscription_cache := some subv, subscription_cache_time := some now,
                    facility_cache := [(Json.pyStr fid, Json.obj fkvs)],
                    facility_cache_time := some now }, 1) := by
      unfold fetch_facility_info_cached fetch_raw
      simp [hpf, hfc, hpa, haccess, hfac, insertKey, Json.lookupKey]
    simp only [hfidt, optTruthy, hf, Option.getD_some, if_true]
    by_cases hft : (Json.obj fkvs).truthy <;> simp [hft, Json.getD?]
  unfold async_update_data
  simp only [htok, Bool.false_eq_true, if_false, Except.bind, bind, hss, hsubstep, hfacstep]
  exact ⟨_, _, rfl, rfl, rfl, rfl⟩

/-- Witness for C1: the concrete cycle on `stFix` with oracle `oC1`. -/
theorem cycle_session_failure_witness :
    ∃ snap st', async_update_data stFix oC1 0 = Except.ok (snap, st') ∧
      snap.current_session = some none ∧
      snap.subscription = some (some subFix) ∧
      snap.facility = some (some facA) :=
  cycle_session_failure_isolated stFix oC1 0 subFix
    (Json.arr [Json.obj [("facilityId", Json.str "F1")]])
    (Json.obj [("facilityId", Json.str "F1")])
    (Json.str "F1") [("facilityName", Json.str "A")]
    (by decide) rfl rfl rfl rfl (by decide) rfl (by decide) rfl rfl (by decide) rfl

/-- Counterexample to C4: on a page whose form action carries an empty
`client_data` (the other three parameters non-empty), the
session-parameter step succeeds — `client_data` is absent from the
source's `if not self.session_code or not self.execution or not
self.tab_id` check — so an empty `client_data` alone does not fail the
login attempt, contradicting the claim. -/
theorem client_data_not_checked_cex :
    ∃ p, get_session_parameters docCD = Except.ok p ∧ p.client_data = [] :=
  ⟨⟨"A".data, "B".data, "C".data, []⟩, rfl, rfl⟩

/-- C4 amended: the session-parameter step hard-fails iff no form action
is found or any of `session_code`, `execution`, `tab_id` is empty after
extraction; `client_data` is not checked, so an empty `client_data`
alone does not fail the attempt. -/
theorem session_params_check_amended (html_content : List Char) :
    (∀ p, get_session_parameters html_content = Except.ok p →
        p.session_code ≠ [] ∧ p.execution ≠ [] ∧ p.tab_id ≠ []) ∧
    (extract_form_action html_content = none →
        get_session_parameters html_content = Except.error ()) ∧
    (∀ url, extract_form_action html_content = some url →
        (get_session_parameters html_content = Except.error () ↔
          (parse_qs_first (urlQuery url) "session_code".data [] = [] ∨
           parse_qs_first (urlQuery url) "execution".data [] = [] ∨
           parse_qs_first (urlQuery url) "tab_id".data [] = []))) := by
  refine ⟨?_, ?_, ?_⟩
  · intro p hp
    unfold get_session_parameters at hp
    cases he : extract_form_action html_content with
    | none => rw [he] at hp; exact absurd hp (by simp)
    | some url =>
      rw [he] at hp
      dsimp only at hp
      split at hp
      · exact absurd hp (by simp)
      · next hcond =>
        injection hp with hp1
        subst hp1
        simp only [Bool.or_eq_true, not_or, Bool.not_eq_true, List.isEmpty_eq_false] at hcond
        exact ⟨hcond.1.1, hcond.1.2, hcond.2⟩
  · intro he
    unfold get_session_parameters
    rw [he]
  · intro url he
    unfold get_session_parameters
    rw [he]
    constructor
    · intro h
      dsimp only at h
      by_contra hno
      push_neg at hno
      rw [if_neg (by
        simp only [Bool.or_eq_true, not_or, Bool.not_eq_true, List.isEmpty_eq_false]
        exact ⟨⟨hno.1, hno.2.1⟩, hno.2.2⟩)] at h
      exact absurd h (by simp)
    · intro hd
      dsimp only
      rcases hd with h | h | h <;> simp [h]

/-- Witness for the amended C4: a concrete page with an empty `tab_id`
makes the step fail. -/
theorem session_params_check_witness :
    get_session_parameters docTab = Except.error () :=
  ((session_params_check_amended docTab).2.2 urlTab rfl).mpr
    (Or.inr (Or.inr rfl))

/-- Boolean substring test agrees with `List.IsInfix`. -/
theorem hasSub_iff (pat s : List Char) : hasSub pat s = true ↔ pat <:+: s := by
  induction s with
  | nil => simp [hasSub, List.isEmpty_iff]
  | cons c cs ih =>
    simp only [hasSub, Bool.or_eq_true, List.isPrefixOf_iff_prefix, ih]
    constructor
    · rintro (h | h)
      · exact h.isInfix
      · exact List.infix_cons h
    · intro h
      rcases (List.infix_cons_iff).mp h with h | h
      · exact Or.inl h
      · exact Or.inr h

/-- An alphanumeric character is none of the structural delimiters the
extraction pipeline and query parser split on. -/
theorem alphanum_ne (c : Char) (h : c.isAlphanum = true) :
    c ≠ '&' ∧ c ≠ '=' ∧ c ≠ '%' ∧ c ≠ '+' ∧ c ≠ '"' ∧ c ≠ '>' ∧ c ≠ '#' ∧ c ≠ '?' := by
  refine ⟨?_, ?_, ?_, ?_, ?_, ?_, ?_, ?_⟩ <;>
    (intro heq; subst heq; exact absurd h (by decide))

/-- A URL character is none of the delimiters the regex and URL parsing
split on. -/
theorem urlChar_ne (c : Char) (h : urlChar c = true) :
    c ≠ '"' ∧ c ≠ '>' ∧ c ≠ '#' := by
  refine ⟨?_, ?_, ?_⟩ <;>
    (intro heq; subst heq; exact absurd h (by decide))

/-- Alphanumeric characters are URL characters. -/
theorem urlChar_of_alphanum (c : Char) (h : c.isAlphanum = true) : urlChar c = true := by
  simp [urlChar, h]

/-- All characters of the relative action URL are URL characters. -/
theorem relAction_chars (A B C D : List Char)
    (hA : ∀ c ∈ A, c.isAlphanum = true) (hB : ∀ c ∈ B, c.isAlphanum = true)
    (hC : ∀ c ∈ C, c.isAlphanum = true) (hD : ∀ c ∈ D, c.isAlphanum = true) :
    ∀ c ∈ relAction A B C D, urlChar c = true := by
  intro c hc
  unfold relAction at hc
  simp only [List.mem_append] at hc
  rcases hc with ((((((h | h) | h) | h) | h) | h) | h) | h
  · exact (show ∀ x ∈ "/realms/x/login-actions/authenticate?session_code=".data,
      urlChar x = true by decide) c h
  · exact urlChar_of_alphanum c (hA c h)
  · exact (show ∀ x ∈ "&amp;execution=".data, urlChar x = true by decide) c h
  · exact urlChar_of_alphanum c (hB c h)
  · exact (show ∀ x ∈ "&amp;tab_id=".data, urlChar x = true by decide) c h
  · exact urlChar_of_alphanum c (hC c h)
  · exact (show ∀ x ∈ "&amp;client_data=".data, urlChar x = true by decide) c h
  · exact urlChar_of_alphanum c (hD c h)

/-- Full takeWhile over a satisfying left part of an append. -/
theorem takeWhile_append_all (p : Char → Bool) (a b : List Char)
    (h : ∀ c ∈ a, p c = true) :
    (a ++ b).takeWhile p = a ++ b.takeWhile p := by
  induction a with
  | nil => rfl
  | cons c cs ih =>
    have hc : p c = true := h c (by simp)
    simp [List.takeWhile, hc, ih (fun d hd => h d (by simp [hd]))]

/-- Full dropWhile over a satisfying left part of an append. -/
theorem dropWhile_append_all (p : Char → Bool) (a b : List Char)
    (h : ∀ c ∈ a, p c = true) :
    (a ++ b).dropWhile p = b.dropWhile p := by
  induction a with
  | nil => rfl
  | cons c cs ih =>
    have hc : p c = true := h c (by simp)
    simp [List.dropWhile, hc, ih (fun d hd => h d (by simp [hd]))]

/-- Decoding step on a character that is neither `+` nor `%`. -/
theorem unquotePlus_cons_ne (c : Char) (cs : List Char)
    (h1 : c ≠ '+') (h2 : c ≠ '%') :
    unquotePlus (c :: cs) = c :: unquotePlus cs := by
  conv_lhs => unfold unquotePlus
  split <;> simp_all

/-- Percent/plus decoding is the identity on text free of `%` and `+`. -/
theorem unquotePlus_id (l : List Char) (h : ∀ c ∈ l, c ≠ '%' ∧ c ≠ '+') :
    unquotePlus l = l := by
  induction l with
  | nil => rfl
  | cons c cs ih =>
    have hc := h c (by simp)
    rw [unquotePlus_cons_ne c cs hc.2 hc.1, ih (fun d hd => h d (by simp [hd]))]

/-- Splitting never yields an empty field list. -/
theorem splitAmp_ne_nil (l : List Char) : splitAmp l ≠ [] := by
  induction l with
  | nil => simp [splitAmp]
  | cons c cs ih =>
    unfold splitAmp
    split <;> (try split) <;> simp_all

/-- Splitting step on a non-separator character. -/
theorem splitAmp_cons_ne (c : Char) (cs : List Char) (h : c ≠ '&') :
    splitAmp (c :: cs) = (c :: (splitAmp cs).headI) :: (splitAmp cs).tail := by
  conv_lhs => unfold splitAmp
  split
  · simp_all
  · simp_all
  · next u cv rv hne heq =>
    injection heq with h1 h2
    subst h1
    subst h2
    cases hsp : splitAmp cs with
    | nil => exact absurd hsp (splitAmp_ne_nil cs)
    | cons f fs => rfl

/-- Splitting step on the separator. -/
theorem splitAmp_amp (l : List Char) : splitAmp ('&' :: l) = [] :: splitAmp l := rfl

/-- Splitting through a separator-free left part of an append. -/
theorem splitAmp_append_noamp (a l : List Char) (h : ∀ c ∈ a, c ≠ '&') :
    splitAmp (a ++ l) = (a ++ (splitAmp l).headI) :: (splitAmp l).tail := by
  induction a with
  | nil =>
    cases hsp : splitAmp l with
    | nil => exact absurd hsp (splitAmp_ne_nil l)
    | cons f fs => simp [hsp]
  | cons c cs ih =>
    have hc : c ≠ '&' := h c (by simp)
    rw [List.cons_append, splitAmp_cons_ne c (cs ++ l) hc,
        ih (fun d hd => h d (by simp [hd]))]
    simp

/-- Splitting a separator-free field followed by a separator. -/
theorem splitAmp_field (a rest : List Char) (h : ∀ c ∈ a, c ≠ '&') :
    splitAmp (a ++ '&' :: rest) = a :: splitAmp rest := by
  rw [splitAmp_append_noamp a ('&' :: rest) h, splitAmp_amp]
  simp

/-- Splitting a single separator-free field. -/
theorem splitAmp_single (a : List Char) (h : ∀ c ∈ a, c ≠ '&') :
    splitAmp a = [a] := by
  have h0 := splitAmp_append_noamp a [] h
  simpa [splitAmp] using h0

/-- The query-pair reading of a `name=value` field with a non-empty
plain value. -/
theorem qsPair_named (name V : List Char)
    (hn : ∀ c ∈ name, c ≠ '=' ∧ c ≠ '%' ∧ c ≠ '+')
    (hv : ∀ c ∈ V, c ≠ '%' ∧ c ≠ '+') (hV : V ≠ []) :
    qsPair? (name ++ '=' :: V) = some (name, V) := by
  unfold qsPair?
  rw [if_neg (by simp)]
  have hd : (name ++ '=' :: V).dropWhile (· ≠ '=') = '=' :: V := by
    rw [dropWhile_append_all _ name ('=' :: V) (by
      intro c hc
      simpa using (hn c hc).1)]
    simp [List.dropWhile]
  have ht : (name ++ '=' :: V).takeWhile (· ≠ '=') = name := by
    rw [takeWhile_append_all _ name ('=' :: V) (by
      intro c hc
      simpa using (hn c hc).1)]
    simp [List.takeWhile]
  rw [hd, ht]
  dsimp only
  rw [if_neg (by simpa [List.isEmpty_iff] using hV)]
  rw [unquotePlus_id name (fun c hc => ⟨(hn c hc).2.1, (hn c hc).2.2⟩),
      unquotePlus_id V hv]

/-- Unescaping step on a character other than `&`. -/
theorem htmlUnescape_cons_ne (c : Char) (cs : List Char) (h : c ≠ '&') :
    htmlUnescape (c :: cs) = c :: htmlUnescape cs := by
  conv_lhs => unfold htmlUnescape
  split <;> simp_all

/-- Unescaping through an ampersand-free left part of an append. -/
theorem htmlUnescape_append_noamp (a l : List Char) (h : ∀ c ∈ a, c ≠ '&') :
    htmlUnescape (a ++ l) = a ++ htmlUnescape l := by
  induction a with
  | nil => rfl
  | cons c cs ih =>
    rw [List.cons_append, htmlUnescape_cons_ne c (cs ++ l) (h c (by simp)),
        ih (fun d hd => h d (by simp [hd]))]
    rfl

/-- Unescaping `&amp;` followed by more text. -/
theorem htmlUnescape_amp (l : List Char) :
    htmlUnescape ('&' :: 'a' :: 'm' :: 'p' :: ';' :: l) = '&' :: htmlUnescape l := rfl

/-- Decomposition of a suffix of an append. -/
theorem suffix_append_cases {l a b : List Char} (h : l <:+ a ++ b) :
    (∃ a', a' <:+ a ∧ l = a' ++ b) ∨ l <:+ b := by
  induction a with
  | nil => exact Or.inr h
  | cons c cs ih =>
    rw [List.cons_append, List.suffix_cons_iff] at h
    rcases h with h | h
    · exact Or.inl ⟨c :: cs, List.suffix_rfl, h⟩
    · rcases ih h with ⟨a', ha1, ha2⟩ | h'
      · exact Or.inl ⟨a', ha1.trans (List.suffix_cons c cs), ha2⟩
      · exact Or.inr h'

/-- The `action="` pattern cannot match at a character other than `a`. -/
theorem tryActionHere_ne_a (c : Char) (rest : List Char) (h : c ≠ 'a') :
    tryActionHere (c :: rest) = none := by
  unfold tryActionHere
  rw [if_neg]
  intro hp
  rw [List.isPrefixOf_iff_prefix] at hp
  obtain ⟨t, heq⟩ := hp
  rw [show apat ++ t = 'a' :: ("ction=\"".data ++ t) from rfl] at heq
  injection heq with h1 h2
  exact h h1.symm

/-- The `action="` pattern cannot match where it is not a prefix. -/
theorem tryActionHere_none_of_not_prefix (s : List Char) (h : ¬ apat <+: s) :
    tryActionHere s = none := by
  unfold tryActionHere
  rw [if_neg]
  rw [List.isPrefixOf_iff_prefix]
  exact h

/-- The backtracking search stops at a `>`. -/
theorem sar_stop (r : List Char) : searchActionRight ('>' :: r) = none := by
  unfold searchActionRight
  rw [if_neg (by simp)]
  exact tryActionHere_ne_a '>' r (by decide)

/-- Skipping a left part in which no `action="` match starts and which
contains no `>`. -/
theorem sar_skip (u v : List Char) (hu : ∀ c ∈ u, c ≠ '>')
    (ht : ∀ u', u' ≠ [] → u' <:+ u → tryActionHere (u' ++ v) = none) :
    searchActionRight (u ++ v) = searchActionRight v := by
  induction u with
  | nil => rfl
  | cons c cs ih =>
    have hc : c ≠ '>' := hu c (by simp)
    have hrec : searchActionRight (cs ++ v) = searchActionRight v :=
      ih (fun d hd => hu d (by simp [hd]))
        (fun u' h1 h2 => ht u' h1 (h2.trans (List.suffix_cons c cs)))
    rw [List.cons_append]
    conv_lhs => unfold searchActionRight
    rw [if_pos hc, hrec]
    cases hsv : searchActionRight v with
    | some r => rfl
    | none =>
      have := ht (c :: cs) (by simp) List.suffix_rfl
      rw [List.cons_append] at this
      simp [this]

/-- No `action="` match can start inside the URL part: an occurrence
would need the closing quote of the pattern at offset 7, which the URL
cannot supply (URL characters exclude quotes, the URL ends in an
alphanumeric where the pattern needs `=`, and the template text after
the URL has no quote at the reachable offsets). -/
theorem tryActionHere_url_none (b' rest : List Char) (hb : b' ≠ [])
    (hchars : ∀ c ∈ b', urlChar c = true)
    (hlast : (b'.getLast hb).isAlphanum = true)
    (hrlen : 8 ≤ rest.length)
    (hrest : ∀ k (hk : k < rest.length), 1 ≤ k → k ≤ 7 → rest[k] ≠ '"') :
    tryActionHere (b' ++ rest) = none := by
  apply tryActionHere_none_of_not_prefix
  intro hpre
  obtain ⟨t, heq⟩ := hpre
  have hn1 : 1 ≤ b'.length := by
    cases b' with
    | nil => exact absurd rfl hb
    | cons x xs => simp
  have hlen : 8 ≤ (b' ++ rest).length := by
    simp only [List.length_append]
    omega
  have hbr7 : 7 < (b' ++ rest).length := by omega
  have hbr6 : 6 < (b' ++ rest).length := by omega
  have hat7 : 7 < (apat ++ t).length := by rw [heq]; omega
  have hat6 : 6 < (apat ++ t).length := by omega
  have ha7 : 7 < apat.length := by decide
  have ha6 : 6 < apat.length := by decide
  have hax7 : (apat ++ t)[7] = apat[7] := List.getElem_append_left ha7
  have hax6 : (apat ++ t)[6] = apat[6] := List.getElem_append_left ha6
  rcases le_or_lt 8 b'.length with h8 | h8
  · -- offset 7 lands in b': the pattern's quote would be a URL character
    have hb7 : 7 < b'.length := by omega
    have h1 : (b' ++ rest)[7] = b'[7] := List.getElem_append_left hb7
    have h2 : (b' ++ rest)[7] = (apat ++ t)[7] := List.getElem_of_eq heq.symm hbr7
    have h3 : b'[7] = '"' := by
      rw [← h1, h2, hax7]
      rfl
    have hmem : ('"' : Char) ∈ b' := h3 ▸ List.getElem_mem _
    exact absurd (hchars '"' hmem) (by decide)
  · by_cases h7 : b'.length = 7
    · have hb6 : 6 < b'.length := by omega
      have h1 : (b' ++ rest)[6] = b'[6] := List.getElem_append_left hb6
      have h2 : (b' ++ rest)[6] = (apat ++ t)[6] := List.getElem_of_eq heq.symm hbr6
      have h3 : b'[6] = '=' := by
        rw [← h1, h2, hax6]
        rfl
      have h4 : b'.getLast hb = b'[6] := by
        rw [List.getLast_eq_getElem b' hb]
        congr 1
        omega
      rw [h4, h3] at hlast
      exact absurd hlast (by decide)
    · have hn6 : b'.length ≤ 6 := by omega
      have hr7 : 7 - b'.length < rest.length := by omega
      have h1 : (b' ++ rest)[7] = rest[7 - b'.length] :=
        List.getElem_append_right (by omega)
      have h2 : (b' ++ rest)[7] = (apat ++ t)[7] := List.getElem_of_eq heq.symm hbr7
      have h3 : rest[7 - b'.length] = '"' := by
        rw [← h1, h2, hax7]
        rfl
      exact hrest (7 - b'.length) (by omega) (by omega) (by omega) h3

/-- No `action="` match starts strictly inside
`ction=" ++ url ++ formTpre`, so the backtracking search over that
region fails. -/
theorem sar_inner_none (url post : List Char)
    (hq : ∀ c ∈ url, urlChar c = true)
    (hne : url ≠ [])
    (hlast : (url.getLast hne).isAlphanum = true) :
    searchActionRight ("ction=\"".data ++ (url ++ (formTpre ++ ('>' :: post)))) = none := by
  have hurl_tryn : ∀ (b' : List Char) (hb : b' ≠ []), b' <:+ url →
      tryActionHere (b' ++ (formTpre ++ ('>' :: post))) = none := by
    intro b' hb hbsuf
    obtain ⟨t, rfl⟩ := hbsuf
    refine tryActionHere_url_none b' (formTpre ++ ('>' :: post)) hb
      (fun c hc => hq c (by simp [hc]))
      ?_ (by simp [formTpre]) ?_
    · have hg := List.getLast_append' t b' hb
      exact hg ▸ hlast
    · intro k hk h1 h7
      have hkt : k < formTpre.length := by simp [formTpre]; omega
      have hidx : (formTpre ++ ('>' :: post))[k] = formTpre[k] :=
        List.getElem_append_left hkt
      rw [hidx]
      intro hcon
      have hsome : formTpre[k]? = some '"' := by
        rw [List.getElem?_eq_getElem hkt, hcon]
      have hforall : ∀ j ∈ ([1, 2, 3, 4, 5, 6, 7] : List Nat),
          formTpre[j]? ≠ some '"' := by decide
      exact hforall k (by interval_cases k <;> simp) hsome
  have hw1 : ∀ c ∈ ("ction=\"".data ++ (url ++ formTpre)), c ≠ '>' := by
    intro c hc
    simp only [List.mem_append] at hc
    rcases hc with h | (h | h)
    · exact (show ∀ x ∈ "ction=\"".data, x ≠ '>' by decide) c h
    · exact (urlChar_ne c (hq c h)).2.1
    · exact (show ∀ x ∈ formTpre, x ≠ '>' by decide) c h
  have htry : ∀ u', u' ≠ [] → u' <:+ ("ction=\"".data ++ (url ++ formTpre)) →
      tryActionHere (u' ++ ('>' :: post)) = none := by
    intro u' hneu hsuf
    rcases suffix_append_cases hsuf with ⟨a', ha, rfl⟩ | hsuf2
    · cases a' with
      | nil =>
        simpa [List.append_assoc] using hurl_tryn url hne List.suffix_rfl
      | cons c a'' =>
        have hc : c ∈ "ction=\"".data := ha.subset (by simp)
        have hca : c ≠ 'a' := (show ∀ x ∈ "ction=\"".data, x ≠ 'a' by decide) c hc
        simpa [List.append_assoc] using
          tryActionHere_ne_a c (a'' ++ (url ++ formTpre) ++ ('>' :: post)) hca
    · rcases suffix_append_cases hsuf2 with ⟨b', hbsuf, rfl⟩ | hsuf3
      · cases b' with
        | nil =>
          have hc : ('"' : Char) ≠ 'a' := by decide
          simpa [formTpre] using
            tryActionHere_ne_a '"' (" method=\"post\"".data ++ ('>' :: post)) hc
        | cons c b'' =>
          simpa [List.append_assoc] using hurl_tryn (c :: b'') (by simp) hbsuf
      · obtain ⟨c, u'', rfl⟩ : ∃ c u'', u' = c :: u'' := by
          cases u' with
          | nil => exact absurd rfl hneu
          | cons c u'' => exact ⟨c, u'', rfl⟩
        have hc : c ∈ formTpre := hsuf3.subset (by simp)
        have hca : c ≠ 'a' := (show ∀ x ∈ formTpre, x ≠ 'a' by decide) c hc
        exact tryActionHere_ne_a c (u'' ++ ('>' :: post)) hca
  have hassoc : "ction=\"".data ++ (url ++ (formTpre ++ ('>' :: post))) =
      ("ction=\"".data ++ (url ++ formTpre)) ++ ('>' :: post) := by
    simp [List.append_assoc]
  rw [hassoc, sar_skip _ _ hw1 htry, sar_stop]

/-- At the `action="` of the template the greedy group matches exactly
the URL. -/
theorem tryActionHere_template (url post : List Char)
    (hq : ∀ c ∈ url, urlChar c = true)
    (hlit : hasSub lpat url = true) :
    tryActionHere (apat ++ (url ++ (formTpre ++ ('>' :: post)))) = some url := by
  unfold tryActionHere
  rw [if_pos (by rw [List.isPrefixOf_iff_prefix]; exact List.prefix_append apat _)]
  have hdrop : (apat ++ (url ++ (formTpre ++ ('>' :: post)))).drop 8 =
      url ++ (formTpre ++ ('>' :: post)) := List.drop_left' rfl
  rw [hdrop]
  dsimp only
  have hquote : ∀ c ∈ url, (fun x => decide (x ≠ '"')) c = true := by
    intro c hc
    simpa using (urlChar_ne c (hq c hc)).1
  have htake : (url ++ (formTpre ++ ('>' :: post))).takeWhile (· ≠ '"') = url := by
    rw [takeWhile_append_all _ url _ hquote]
    simp [formTpre, List.takeWhile]
  have hdropw : (url ++ (formTpre ++ ('>' :: post))).dropWhile (· ≠ '"') =
      formTpre ++ ('>' :: post) := by
    rw [dropWhile_append_all _ url _ hquote]
    simp [formTpre, List.dropWhile]
  rw [htake, hdropw]
  rw [if_pos (by simp [hlit, formTpre])]

/-- The backtracking search over the whole post-`<form` region of the
template returns the URL. -/
theorem sar_template (url post : List Char)
    (hq : ∀ c ∈ url, urlChar c = true)
    (hlit : hasSub lpat url = true)
    (hne : url ≠ [])
    (hlast : (url.getLast hne).isAlphanum = true) :
    searchActionRight (formPfx ++ (apat ++ (url ++ (formTpre ++ ('>' :: post))))) = some url := by
  have hstep : searchActionRight (apat ++ (url ++ (formTpre ++ ('>' :: post)))) = some url := by
    rw [show apat ++ (url ++ (formTpre ++ ('>' :: post))) =
        'a' :: ("ction=\"".data ++ (url ++ (formTpre ++ ('>' :: post)))) from rfl]
    conv_lhs => unfold searchActionRight
    rw [if_pos (by decide), sar_inner_none url post hq hne hlast]
    simpa using tryActionHere_template url post hq hlit
  rw [sar_skip formPfx _ ?_ ?_, hstep]
  · intro c hc
    exact (show ∀ x ∈ formPfx, x ≠ '>' by decide) c hc
  · intro u' hneu hsuf
    obtain ⟨c, u'', rfl⟩ : ∃ c u'', u' = c :: u'' := by
      cases u' with
      | nil => exact absurd rfl hneu
      | cons c u'' => exact ⟨c, u'', rfl⟩
    have hc : c ∈ formPfx := hsuf.subset (by simp)
    exact tryActionHere_ne_a c _ ((show ∀ x ∈ formPfx, x ≠ 'a' by decide) c hc)

/-- The leftmost regex scan passes over a prefix that contains no
`<form`: no full match can start there, because `<form` occurrences
cannot straddle into the form block (whose first character `<` occurs
only at the pattern's start). -/
theorem findFormAction_append (pre : List Char) (r' : List Char)
    (hpre : hasSub fpat pre = false) :
    findFormAction (pre ++ ('<' :: r')) = findFormAction ('<' :: r') := by
  induction pre with
  | nil => rfl
  | cons c cs ih =>
    have h2 : fpat.isPrefixOf (c :: cs) = false ∧ hasSub fpat cs = false := by
      have h0 : (fpat.isPrefixOf (c :: cs) || hasSub fpat cs) = false := hpre
      exact ⟨(Bool.or_eq_false_iff.mp h0).1, (Bool.or_eq_false_iff.mp h0).2⟩
    have hnp : fpat.isPrefixOf ((c :: cs) ++ ('<' :: r')) = false := by
      cases hB : fpat.isPrefixOf ((c :: cs) ++ ('<' :: r')) with
      | false => rfl
      | true =>
        exfalso
        have hp : fpat <+: ((c :: cs) ++ ('<' :: r')) := List.isPrefixOf_iff_prefix.mp hB
        obtain ⟨t, heq⟩ := hp
        have hL := congrArg List.length heq
        simp [fpat] at hL
        by_cases h5 : 5 ≤ (c :: cs).length
        · have htake : fpat = (c :: cs).take 5 := by
            calc fpat = (fpat ++ t).take 5 := (List.take_left' rfl).symm
            _ = ((c :: cs) ++ ('<' :: r')).take 5 := by rw [heq]
            _ = (c :: cs).take 5 := List.take_append_of_le_length h5
          have hfp : fpat <+: c :: cs := htake ▸ List.take_prefix 5 (c :: cs)
          rw [← List.isPrefixOf_iff_prefix] at hfp
          exact absurd hfp (by simp [h2.1])
        · simp only [not_le, List.length_cons] at h5
          have hcl : (c :: cs).length < (fpat ++ t).length := by simp [fpat]; omega
          have hcl2 : (c :: cs).length < ((c :: cs) ++ ('<' :: r')).length := by simp
          have hclf : (c :: cs).length < fpat.length := by simp [fpat]; omega
          have hi1 : (fpat ++ t)[(c :: cs).length] =
              ((c :: cs) ++ ('<' :: r'))[(c :: cs).length] :=
            List.getElem_of_eq heq hcl
          have hi2 : ((c :: cs) ++ ('<' :: r'))[(c :: cs).length] = '<' := by
            rw [List.getElem_append_right (le_refl (c :: cs).length)]
            simp
          have hi3 : (fpat ++ t)[(c :: cs).length] = fpat[(c :: cs).length] :=
            List.getElem_append_left hclf
          have hsome : fpat[(c :: cs).length]? = some '<' := by
            rw [List.getElem?_eq_getElem hclf]
            rw [← hi3, hi1, hi2]
          have hsome' : fpat[cs.length + 1]? = some '<' := by
            simpa using hsome
          have h4 : cs.length = 0 ∨ cs.length = 1 ∨ cs.length = 2 ∨ cs.length = 3 := by omega
          rcases h4 with h|h|h|h <;> rw [h] at hsome' <;> exact absurd hsome' (by decide)
    rw [List.cons_append]
    conv_lhs => unfold findFormAction
    rw [← List.cons_append, hnp]
    simp only [Bool.false_eq_true, if_false]
    exact ih h2.2

/-- Form-action extraction on a document that embeds the login form
template: the regex finds exactly the embedded action URL. -/
theorem findFormAction_formDoc (url pre post : List Char)
    (hpre : hasSub fpat pre = false)
    (hq : ∀ c ∈ url, urlChar c = true)
    (hlit : hasSub lpat url = true)
    (hne : url ≠ [])
    (hlast : (url.getLast hne).isAlphanum = true) :
    findFormAction (formDoc url pre post) = some url := by
  have hform : formDoc url pre post =
      pre ++ ('<' :: ("form id=\"login\" action=\"".data ++
        (url ++ ("\" method=\"post\">".data ++ post)))) := by
    unfold formDoc
    simp only [List.append_assoc]
    rfl
  rw [hform, findFormAction_append pre _ hpre]
  have hdecomp : ('<' :: ("form id=\"login\" action=\"".data ++
        (url ++ ("\" method=\"post\">".data ++ post)))) =
      fpat ++ (formPfx ++ (apat ++ (url ++ (formTpre ++ ('>' :: post))))) := rfl
  conv_lhs => unfold findFormAction
  have hpf : fpat.isPrefixOf ('<' :: ("form id=\"login\" action=\"".data ++
        (url ++ ("\" method=\"post\">".data ++ post)))) = true := by
    rw [hdecomp, List.isPrefixOf_iff_prefix]
    exact List.prefix_append _ _
  rw [hpf]
  have hdrop : (('<' :: ("form id=\"login\" action=\"".data ++
        (url ++ ("\" method=\"post\">".data ++ post)))) : List Char).drop 5 =
      formPfx ++ (apat ++ (url ++ (formTpre ++ ('>' :: post)))) := by
    rw [hdecomp]
    exact List.drop_left' rfl
  simp only [if_true]
  rw [hdrop, sar_template url post hq hlit hne hlast]

/-- Unescaping the relative action URL decodes exactly its three `&amp;`
entities. -/
theorem htmlUnescape_relAction (A B C D : List Char)
    (hA : ∀ c ∈ A, c.isAlphanum = true) (hB : ∀ c ∈ B, c.isAlphanum = true)
    (hC : ∀ c ∈ C, c.isAlphanum = true) (hD : ∀ c ∈ D, c.isAlphanum = true) :
    htmlUnescape (relAction A B C D) = decodedRel A B C D := by
  have hA' : ∀ c ∈ A, c ≠ '&' := fun c hc => (alphanum_ne c (hA c hc)).1
  have hB' : ∀ c ∈ B, c ≠ '&' := fun c hc => (alphanum_ne c (hB c hc)).1
  have hC' : ∀ c ∈ C, c ≠ '&' := fun c hc => (alphanum_ne c (hC c hc)).1
  have hD' : ∀ c ∈ D, c ≠ '&' := fun c hc => (alphanum_ne c (hD c hc)).1
  have h1 : relAction A B C D =
      "/realms/x/login-actions/authenticate?session_code=".data ++
        (A ++ ('&' :: 'a' :: 'm' :: 'p' :: ';' :: ("execution=".data ++
          (B ++ ('&' :: 'a' :: 'm' :: 'p' :: ';' :: ("tab_id=".data ++
            (C ++ ('&' :: 'a' :: 'm' :: 'p' :: ';' :: ("client_data=".data ++ D))))))))) := by
    simp only [relAction, List.append_assoc]
    rfl
  have hR : decodedRel A B C D =
      "/realms/x/login-actions/authenticate?session_code=".data ++
        (A ++ ('&' :: ("execution=".data ++
          (B ++ ('&' :: ("tab_id=".data ++
            (C ++ ('&' :: ("client_data=".data ++ D))))))))) := by
    simp only [decodedRel, List.append_assoc]
    rfl
  rw [h1, hR]
  rw [htmlUnescape_append_noamp _ _
    (show ∀ c ∈ "/realms/x/login-actions/authenticate?session_code=".data, c ≠ '&' by decide)]
  rw [htmlUnescape_append_noamp _ _ hA']
  rw [htmlUnescape_amp]
  rw [htmlUnescape_append_noamp _ _ (show ∀ c ∈ "execution=".data, c ≠ '&' by decide)]
  rw [htmlUnescape_append_noamp _ _ hB']
  rw [htmlUnescape_amp]
  rw [htmlUnescape_append_noamp _ _ (show ∀ c ∈ "tab_id=".data, c ≠ '&' by decide)]
  rw [htmlUnescape_append_noamp _ _ hC']
  rw [htmlUnescape_amp]
  rw [htmlUnescape_append_noamp _ _ (show ∀ c ∈ "client_data=".data, c ≠ '&' by decide)]
  rw [show htmlUnescape D = D from by
    have h0 := htmlUnescape_append_noamp D [] hD'
    simp only [List.append_nil] at h0
    rwa [show htmlUnescape ([] : List Char) = [] from rfl, List.append_nil] at h0]

/-- All characters of the query string are URL characters. -/
theorem qsFour_chars (A B C D : List Char)
    (hA : ∀ c ∈ A, c.isAlphanum = true) (hB : ∀ c ∈ B, c.isAlphanum = true)
    (hC : ∀ c ∈ C, c.isAlphanum = true) (hD : ∀ c ∈ D, c.isAlphanum = true) :
    ∀ c ∈ qsFour A B C D, urlChar c = true := by
  intro c hc
  unfold qsFour at hc
  simp only [List.mem_append] at hc
  rcases hc with ((((((h | h) | h) | h) | h) | h) | h) | h
  · exact (show ∀ x ∈ "session_code=".data, urlChar x = true by decide) c h
  · exact urlChar_of_alphanum c (hA c h)
  · exact (show ∀ x ∈ "&execution=".data, urlChar x = true by decide) c h
  · exact urlChar_of_alphanum c (hB c h)
  · exact (show ∀ x ∈ "&tab_id=".data, urlChar x = true by decide) c h
  · exact urlChar_of_alphanum c (hC c h)
  · exact (show ∀ x ∈ "&client_data=".data, urlChar x = true by decide) c h
  · exact urlChar_of_alphanum c (hD c h)

/-- Query extraction on a URL of the shape `base?query` where the base
holds no `#` or `?` and the query no `#`. -/
theorem urlQuery_split (a b : List Char)
    (ha : ∀ c ∈ a, c ≠ '#' ∧ c ≠ '?') (hb : ∀ c ∈ b, c ≠ '#') :
    urlQuery (a ++ ('?' :: b)) = b := by
  unfold urlQuery
  have htb : b.takeWhile (fun c => decide (c ≠ '#')) = b := by
    have h0 := takeWhile_append_all (fun c => decide (c ≠ '#')) b []
      (by intro c hc; simpa using hb c hc)
    simpa using h0
  rw [takeWhile_append_all _ a _ (by intro c hc; simpa using (ha c hc).1)]
  rw [show ('?' :: b).takeWhile (fun c => decide (c ≠ '#')) =
      '?' :: b.takeWhile (fun c => decide (c ≠ '#')) from by simp [List.takeWhile]]
  rw [htb]
  rw [dropWhile_append_all _ a _ (by intro c hc; simpa using (ha c hc).2)]
  rw [show ('?' :: b).dropWhile (fun c => decide (c ≠ '?')) = '?' :: b from by
    simp [List.dropWhile]]
  rfl

/-- `parse_qs` on the four-parameter query string with plain
alphanumeric non-empty values yields exactly the four values. -/
theorem parse_qs_four (A B C D : List Char)
    (hA : ∀ c ∈ A, c.isAlphanum = true) (hB : ∀ c ∈ B, c.isAlphanum = true)
    (hC : ∀ c ∈ C, c.isAlphanum = true) (hD : ∀ c ∈ D, c.isAlphanum = true)
    (hAne : A ≠ []) (hBne : B ≠ []) (hCne : C ≠ []) (hDne : D ≠ []) :
    parse_qs_first (qsFour A B C D) "session_code".data [] = A ∧
    parse_qs_first (qsFour A B C D) "execution".data [] = B ∧
    parse_qs_first (qsFour A B C D) "tab_id".data [] = C ∧
    parse_qs_first (qsFour A B C D) "client_data".data [] = D := by
  have hA' : ∀ c ∈ "session_code=".data ++ A, c ≠ '&' := by
    intro c hc
    rcases List.mem_append.mp hc with h | h
    · exact (show ∀ x ∈ "session_code=".data, x ≠ '&' by decide) c h
    · exact (alphanum_ne c (hA c h)).1
  have hB' : ∀ c ∈ "execution=".data ++ B, c ≠ '&' := by
    intro c hc
    rcases List.mem_append.mp hc with h | h
    · exact (show ∀ x ∈ "execution=".data, x ≠ '&' by decide) c h
    · exact (alphanum_ne c (hB c h)).1
  have hC' : ∀ c ∈ "tab_id=".data ++ C, c ≠ '&' := by
    intro c hc
    rcases List.mem_append.mp hc with h | h
    · exact (show ∀ x ∈ "tab_id=".data, x ≠ '&' by decide) c h
    · exact (alphanum_ne c (hC c h)).1
  have hD' : ∀ c ∈ "client_data=".data ++ D, c ≠ '&' := by
    intro c hc
    rcases List.mem_append.mp hc with h | h
    · exact (show ∀ x ∈ "client_data=".data, x ≠ '&' by decide) c h
    · exact (alphanum_ne c (hD c h)).1
  have h1 : qsFour A B C D =
      ("session_code=".data ++ A) ++ ('&' :: (("execution=".data ++ B) ++
        ('&' :: (("tab_id=".data ++ C) ++ ('&' :: ("client_data=".data ++ D)))))) := by
    simp only [qsFour, List.append_assoc]
    rfl
  have hsplit : splitAmp (qsFour A B C D) =
      ["session_code=".data ++ A, "execution=".data ++ B,
       "tab_id=".data ++ C, "client_data=".data ++ D] := by
    rw [h1, splitAmp_field _ _ hA', splitAmp_field _ _ hB',
        splitAmp_field _ _ hC', splitAmp_single _ hD']
  have hp1 : qsPair? ("session_code=".data ++ A) = some ("session_code".data, A) := by
    rw [show "session_code=".data ++ A = "session_code".data ++ ('=' :: A) from rfl]
    exact qsPair_named _ _ (by decide)
      (fun c hc => ⟨(alphanum_ne c (hA c hc)).2.2.1, (alphanum_ne c (hA c hc)).2.2.2.1⟩) hAne
  have hp2 : qsPair? ("execution=".data ++ B) = some ("execution".data, B) := by
    rw [show "execution=".data ++ B = "execution".data ++ ('=' :: B) from rfl]
    exact qsPair_named _ _ (by decide)
      (fun c hc => ⟨(alphanum_ne c (hB c hc)).2.2.1, (alphanum_ne c (hB c hc)).2.2.2.1⟩) hBne
  have hp3 : qsPair? ("tab_id=".data ++ C) = some ("tab_id".data, C) := by
    rw [show "tab_id=".data ++ C = "tab_id".data ++ ('=' :: C) from rfl]
    exact qsPair_named _ _ (by decide)
      (fun c hc => ⟨(alphanum_ne c (hC c hc)).2.2.1, (alphanum_ne c (hC c hc)).2.2.2.1⟩) hCne
  have hp4 : qsPair? ("client_data=".data ++ D) = some ("client_data".data, D) := by
    rw [show "client_data=".data ++ D = "client_data".data ++ ('=' :: D) from rfl]
    exact qsPair_named _ _ (by decide)
      (fun c hc => ⟨(alphanum_ne c (hD c hc)).2.2.1, (alphanum_ne c (hD c hc)).2.2.2.1⟩) hDne
  have hfm : (splitAmp (qsFour A B C D)).filterMap qsPair? =
      [("session_code".data, A), ("execution".data, B),
       ("tab_id".data, C), ("client_data".data, D)] := by
    rw [hsplit]
    simp only [List.filterMap_cons, hp1, hp2, hp3, hp4, List.filterMap_nil]
  refine ⟨?_, ?_, ?_, ?_⟩ <;> (unfold parse_qs_first; rw [hfm]) <;> rfl

/-- All characters of the absolute action URL are URL characters. -/
theorem absAction_chars (A B C D : List Char)
    (hA : ∀ c ∈ A, c.isAlphanum = true) (hB : ∀ c ∈ B, c.isAlphanum = true)
    (hC : ∀ c ∈ C, c.isAlphanum = true) (hD : ∀ c ∈ D, c.isAlphanum = true) :
    ∀ c ∈ absAction A B C D, urlChar c = true := by
  intro c hc
  unfold absAction at hc
  rcases List.mem_append.mp hc with h | h
  · exact (show ∀ x ∈ "https://id.laddel.no".data, urlChar x = true by decide) c h
  · exact relAction_chars A B C D hA hB hC hD c h

/-- The relative action URL contains the regex's literal. -/
theorem relAction_hasLit (A B C D : List Char) :
    hasSub lpat (relAction A B C D) = true := by
  rw [hasSub_iff]
  refine ⟨"/realms/x/".data,
    "?session_code=".data ++ (A ++ ("&amp;execution=".data ++ (B ++
      ("&amp;tab_id=".data ++ (C ++ ("&amp;client_data=".data ++ D)))))), ?_⟩
  simp only [relAction, lpat, List.append_assoc]
  rfl

/-- The absolute action URL contains the regex's literal. -/
theorem absAction_hasLit (A B C D : List Char) :
    hasSub lpat (absAction A B C D) = true := by
  rw [hasSub_iff]
  have hs : relAction A B C D <:+ absAction A B C D := ⟨"https://id.laddel.no".data, rfl⟩
  exact ((hasSub_iff _ _).mp (relAction_hasLit A B C D)).trans hs.isInfix

/-- The relative action URL is non-empty. -/
theorem relAction_ne_nil (A B C D : List Char) : relAction A B C D ≠ [] := by
  intro hnil
  have h0 : (relAction A B C D).head? = some '/' := rfl
  rw [hnil] at h0
  simp at h0

/-- The absolute action URL is non-empty. -/
theorem absAction_ne_nil (A B C D : List Char) : absAction A B C D ≠ [] := by
  intro hnil
  have h0 : (absAction A B C D).head? = some 'h' := rfl
  rw [hnil] at h0
  simp at h0

/-- The relative action URL ends in the last character of `D`. -/
theorem relAction_getLast (A B C D : List Char) (hDne : D ≠ [])
    (h : relAction A B C D ≠ []) :
    (relAction A B C D).getLast h = D.getLast hDne :=
  List.getLast_append' _ D hDne

/-- The absolute action URL ends in the last character of `D`. -/
theorem absAction_getLast (A B C D : List Char) (hDne : D ≠ [])
    (h : absAction A B C D ≠ []) :
    (absAction A B C D).getLast h = D.getLast hDne := by
  have h2 : (absAction A B C D).getLast h =
      (relAction A B C D).getLast (relAction_ne_nil A B C D) :=
    List.getLast_append' _ _ (relAction_ne_nil A B C D)
  rw [h2, relAction_getLast A B C D hDne]

/-- Extraction on a document embedding the root-relative action:
the URL is entity-decoded and resolved against the provider origin. -/
theorem extract_form_action_rel (A B C D pre post : List Char)
    (hA : ∀ c ∈ A, c.isAlphanum = true) (hB : ∀ c ∈ B, c.isAlphanum = true)
    (hC : ∀ c ∈ C, c.isAlphanum = true) (hD : ∀ c ∈ D, c.isAlphanum = true)
    (hDne : D ≠ []) (hpre : hasSub fpat pre = false) :
    extract_form_action (formDoc (relAction A B C D) pre post) =
      some ("https://id.laddel.no".data ++ decodedRel A B C D) := by
  have hlast : ((relAction A B C D).getLast (relAction_ne_nil A B C D)).isAlphanum = true := by
    rw [relAction_getLast A B C D hDne]
    exact hD _ (List.getLast_mem hDne)
  unfold extract_form_action
  rw [findFormAction_formDoc (relAction A B C D) pre post hpre
    (relAction_chars A B C D hA hB hC hD) (relAction_hasLit A B C D)
    (relAction_ne_nil A B C D) hlast]
  dsimp only
  rw [htmlUnescape_relAction A B C D hA hB hC hD]
  have hh : (decodedRel A B C D).head? = some '/' := by rfl
  rw [if_pos hh]

/-- Extraction on a document embedding the absolute action: the URL is
entity-decoded and returned unchanged, giving the same final URL. -/
theorem extract_form_action_abs (A B C D pre post : List Char)
    (hA : ∀ c ∈ A, c.isAlphanum = true) (hB : ∀ c ∈ B, c.isAlphanum = true)
    (hC : ∀ c ∈ C, c.isAlphanum = true) (hD : ∀ c ∈ D, c.isAlphanum = true)
    (hDne : D ≠ []) (hpre : hasSub fpat pre = false) :
    extract_form_action (formDoc (absAction A B C D) pre post) =
      some ("https://id.laddel.no".data ++ decodedRel A B C D) := by
  have hlast : ((absAction A B C D).getLast (absAction_ne_nil A B C D)).isAlphanum = true := by
    rw [absAction_getLast A B C D hDne]
    exact hD _ (List.getLast_mem hDne)
  have hdec : htmlUnescape (absAction A B C D) =
      "https://id.laddel.no".data ++ decodedRel A B C D := by
    rw [show absAction A B C D = "https://id.laddel.no".data ++ relAction A B C D from rfl]
    rw [htmlUnescape_append_noamp _ _
      (show ∀ c ∈ "https://id.laddel.no".data, c ≠ '&' by decide)]
    rw [htmlUnescape_relAction A B C D hA hB hC hD]
  unfold extract_form_action
  rw [findFormAction_formDoc (absAction A B C D) pre post hpre
    (absAction_chars A B C D hA hB hC hD) (absAction_hasLit A B C D)
    (absAction_ne_nil A B C D) hlast]
  dsimp only
  rw [hdec]
  have hh : ("https://id.laddel.no".data ++ decodedRel A B C D).head? = some 'h' := by rfl
  rw [if_neg (by rw [hh]; decide)]

/-- Query extraction on the final URL yields the four-parameter query
string. -/
theorem urlQuery_final (A B C D : List Char)
    (hA : ∀ c ∈ A, c.isAlphanum = true) (hB : ∀ c ∈ B, c.isAlphanum = true)
    (hC : ∀ c ∈ C, c.isAlphanum = true) (hD : ∀ c ∈ D, c.isAlphanum = true) :
    urlQuery ("https://id.laddel.no".data ++ decodedRel A B C D) = qsFour A B C D := by
  have hu : "https://id.laddel.no".data ++ decodedRel A B C D =
      "https://id.laddel.no/realms/x/login-actions/authenticate".data ++
        ('?' :: qsFour A B C D) := by
    simp only [decodedRel, qsFour, List.append_assoc]
    rfl
  rw [hu, urlQuery_split _ _
    (show ∀ c ∈ "https://id.laddel.no/realms/x/login-actions/authenticate".data,
      c ≠ '#' ∧ c ≠ '?' by decide)
    (fun c hc => (urlChar_ne c (qsFour_chars A B C D hA hB hC hD c hc)).2.2)]

/-- Session-parameter extraction on the root-relative document yields
exactly the four embedded values. -/
theorem get_session_parameters_rel (A B C D pre post : List Char)
    (hA : ∀ c ∈ A, c.isAlphanum = true) (hB : ∀ c ∈ B, c.isAlphanum = true)
    (hC : ∀ c ∈ C, c.isAlphanum = true) (hD : ∀ c ∈ D, c.isAlphanum = true)
    (hAne : A ≠ []) (hBne : B ≠ []) (hCne : C ≠ []) (hDne : D ≠ [])
    (hpre : hasSub fpat pre = false) :
    get_session_parameters (formDoc (relAction A B C D) pre post) =
      Except.ok ⟨A, B, C, D⟩ := by
  unfold get_session_parameters
  rw [extract_form_action_rel A B C D pre post hA hB hC hD hDne hpre]
  dsimp only
  rw [urlQuery_final A B C D hA hB hC hD]
  obtain ⟨hp1, hp2, hp3, hp4⟩ := parse_qs_four A B C D hA hB hC hD hAne hBne hCne hDne
  rw [hp1, hp2, hp3, hp4]
  rw [if_neg (by simp [List.isEmpty_iff, hAne, hBne, hCne])]

/-- Session-parameter extraction on the absolute document yields
exactly the four embedded values. -/
theorem get_session_parameters_abs (A B C D pre post : List Char)
    (hA : ∀ c ∈ A, c.isAlphanum = true) (hB : ∀ c ∈ B, c.isAlphanum = true)
    (hC : ∀ c ∈ C, c.isAlphanum = true) (hD : ∀ c ∈ D, c.isAlphanum = true)
    (hAne : A ≠ []) (hBne : B ≠ []) (hCne : C ≠ []) (hDne : D ≠ [])
    (hpre : hasSub fpat pre = false) :
    get_session_parameters (formDoc (absAction A B C D) pre post) =
      Except.ok ⟨A, B, C, D⟩ := by
  unfold get_session_parameters
  rw [extract_form_action_abs A B C D pre post hA hB hC hD hDne hpre]
  dsimp only
  rw [urlQuery_final A B C D hA hB hC hD]
  obtain ⟨hp1, hp2, hp3, hp4⟩ := parse_qs_four A B C D hA hB hC hD hAne hBne hCne hDne
  rw [hp1, hp2, hp3, hp4]
  rw [if_neg (by simp [List.isEmpty_iff, hAne, hBne, hCne])]

/-- A successful match at one position yields a group containing the
literal and lying inside the text. -/
theorem tryActionHere_some (s r : List Char) (h : tryActionHere s = some r) :
    hasSub lpat r = true ∧ r <:+: s := by
  unfold tryActionHere at h
  split at h
  · dsimp only at h
    split at h
    next hc =>
      injection h with h
      subst h
      refine ⟨(Bool.and_eq_true_iff.mp hc).1, ?_⟩
      exact (List.takeWhile_prefix _).isInfix.trans (List.drop_suffix 8 s).isInfix
    next => exact absurd h (by simp)
  · exact absurd h (by simp)

/-- A successful backtracking search yields a group containing the
literal and lying inside the text. -/
theorem sar_some (s r : List Char) (h : searchActionRight s = some r) :
    hasSub lpat r = true ∧ r <:+: s := by
  induction s with
  | nil => exact absurd h (by simp [searchActionRight])
  | cons c cs ih =>
    unfold searchActionRight at h
    cases hin : (if c ≠ '>' then searchActionRight cs else none) with
    | some r' =>
      rw [hin] at h
      dsimp only at h
      injection h with h
      have hcs : searchActionRight cs = some r' := by
        by_cases hc : c = '>'
        · simp [hc] at hin
        · simpa [hc] using hin
      obtain ⟨h1, h2⟩ := ih (h ▸ hcs)
      exact ⟨h1, List.infix_cons h2⟩
    | none =>
      rw [hin] at h
      dsimp only at h
      exact tryActionHere_some _ _ h

/-- A successful regex search yields a group containing the literal and
lying inside the document. -/
theorem findFormAction_some (s r : List Char) (h : findFormAction s = some r) :
    hasSub lpat r = true ∧ r <:+: s := by
  induction s with
  | nil => exact absurd h (by simp [findFormAction])
  | cons c cs ih =>
    unfold findFormAction at h
    cases hin : (if fpat.isPrefixOf (c :: cs) then searchActionRight ((c :: cs).drop 5) else none) with
    | some r' =>
      rw [hin] at h
      dsimp only at h
      injection h with h
      have hsa : searchActionRight ((c :: cs).drop 5) = some r' := by
        by_cases hc : fpat.isPrefixOf (c :: cs) = true
        · simpa [hc] using hin
        · simp [hc] at hin
      obtain ⟨h1, h2⟩ := sar_some _ _ (h ▸ hsa)
      exact ⟨h1, h2.trans (List.drop_suffix 5 (c :: cs)).isInfix⟩
    | none =>
      rw [hin] at h
      dsimp only at h
      obtain ⟨h1, h2⟩ := ih h
      exact ⟨h1, List.infix_cons h2⟩

/-- On a document not containing the `login-actions/authenticate`
literal, extraction finds nothing and the session-parameter step
raises. -/
theorem extract_none_of_no_lit (doc : List Char) (h : hasSub lpat doc = false) :
    extract_form_action doc = none ∧ get_session_parameters doc = Except.error () := by
  have hf : findFormAction doc = none := by
    cases hffa : findFormAction doc with
    | none => rfl
    | some r =>
      obtain ⟨h1, h2⟩ := findFormAction_some doc r hffa
      have ht : hasSub lpat doc = true :=
        (hasSub_iff _ _).mpr (((hasSub_iff _ _).mp h1).trans h2)
      rw [ht] at h
      cases h
  have he : extract_form_action doc = none := by
    unfold extract_form_action
    rw [hf]
  refine ⟨he, ?_⟩
  unfold get_session_parameters
  rw [he]

/-- C9: on a document embedding the provider's login form whose action
attribute is the `login-actions/authenticate` URL carrying
`session_code=A&execution=B&tab_id=C&client_data=D` — root-relative or
absolute, ampersands HTML-entity-encoded, values alphanumeric and
non-empty, the markup before the form free of `<form` text —
form-action extraction yields the entity-decoded URL (root-relative
actions resolved against `https://id.laddel.no`) and the
session-parameter step returns exactly the four values A, B, C, D; on
any document not containing the `login-actions/authenticate` literal,
extraction yields no action URL and the step raises. -/
theorem form_extraction_yields_params (A B C D pre post : List Char)
    (hA : ∀ c ∈ A, c.isAlphanum = true) (hB : ∀ c ∈ B, c.isAlphanum = true)
    (hC : ∀ c ∈ C, c.isAlphanum = true) (hD : ∀ c ∈ D, c.isAlphanum = true)
    (hAne : A ≠ []) (hBne : B ≠ []) (hCne : C ≠ []) (hDne : D ≠ [])
    (hpre : hasSub fpat pre = false) :
    (extract_form_action (formDoc (relAction A B C D) pre post) =
        some ("https://id.laddel.no".data ++ decodedRel A B C D) ∧
      get_session_parameters (formDoc (relAction A B C D) pre post) =
        Except.ok ⟨A, B, C, D⟩) ∧
    (extract_form_action (formDoc (absAction A B C D) pre post) =
        some ("https://id.laddel.no".data ++ decodedRel A B C D) ∧
      get_session_parameters (formDoc (absAction A B C D) pre post) =
        Except.ok ⟨A, B, C, D⟩) ∧
    (∀ doc : List Char, hasSub lpat doc = false →
      extract_form_action doc = none ∧
      get_session_parameters doc = Except.error ()) :=
  ⟨⟨extract_form_action_rel A B C D pre post hA hB hC hD hDne hpre,
    get_session_parameters_rel A B C D pre post hA hB hC hD hAne hBne hCne hDne hpre⟩,
   ⟨extract_form_action_abs A B C D pre post hA hB hC hD hDne hpre,
    get_session_parameters_abs A B C D pre post hA hB hC hD hAne hBne hCne hDne hpre⟩,
   extract_none_of_no_lit⟩

/-- Witness for C9 at a concrete document with values `SC1`, `EX2`,
`TB3`, `CD4` and at a concrete form-free document. -/
theorem form_extraction_witness :
    get_session_parameters (formDoc
        (relAction "SC1".data "EX2".data "TB3".data "CD4".data)
        "<html><body>".data "</body></html>".data) =
      Except.ok ⟨"SC1".data, "EX2".data, "TB3".data, "CD4".data⟩ ∧
    get_session_parameters "<html><form action=\"/other\"></form></html>".data =
      Except.error () :=
  ⟨(form_extraction_yields_params "SC1".data "EX2".data "TB3".data "CD4".data
      "<html><body>".data "</body></html>".data
      (by decide) (by decide) (by decide) (by decide)
      (by decide) (by decide) (by decide) (by decide) (by decide)).1.2,
   ((form_extraction_yields_params "SC1".data "EX2".data "TB3".data "CD4".data
      "<html><body>".data "</body></html>".data
      (by decide) (by decide) (by decide) (by decide)
      (by decide) (by decide) (by decide) (by decide) (by decide)).2.2
     "<html><form action=\"/other\"></form></html>".data (by decide)).2⟩
